import Mathlib

/-!
Verification development for the paraglide statute parser
(src/paraglide/parsers/retsinformation.py and src/paraglide/data/models.py).

The Python source is shallowly embedded: HTML elements become a `Node` tree,
BeautifulSoup queries become recursive searches over that tree, the pydantic
models become Lean structures with fallible constructors, and
`RetsinformationStatuteParser` becomes a family of `Except`-valued functions.
All definitions are executable and structurally recursive so that concrete
inputs evaluate by `rfl` / `decide`.
-/

/-! ## String utilities (Python `str.split`, `str.strip`, `" ".join`) -/

/-- The ASCII whitespace characters recognised by Python `str.split()` /
`str.strip()` and by the regex class `\s`: space, tab, newline, carriage
return, vertical tab, form feed. -/
def isPySpace (c : Char) : Bool :=
  c == ' ' || c == '\t' || c == '\n' || c == '\r' || c.val == 11 || c.val == 12

/-- Helper for `pySplitL`: accumulates the current word (reversed) while
scanning. Mirrors Python `str.split()` with no separator argument. -/
def pySplitAux : List Char → List Char → List (List Char)
  | [], acc => if acc = [] then [] else [acc.reverse]
  | c :: rest, acc =>
    if isPySpace c then
      if acc = [] then pySplitAux rest [] else acc.reverse :: pySplitAux rest []
    else pySplitAux rest (c :: acc)

/-- Python `s.split()`: maximal runs of non-whitespace characters; leading,
trailing and repeated whitespace produce no empty words. -/
def pySplitL (s : List Char) : List (List Char) :=
  pySplitAux s []

/-- Python `" ".join(ws)`: words joined by a single space. -/
def joinSpace : List (List Char) → List Char
  | [] => []
  | [w] => w
  | w :: ws => w ++ ' ' :: joinSpace ws

/-- Python `" ".join(s.split())`: collapse internal whitespace runs to single
spaces and trim leading/trailing whitespace.  This is the text-cleaning
transformation of `get_cleaned_text` (retsinformation.py line 39). -/
def normalizeStr (s : String) : String :=
  String.mk (joinSpace (pySplitL s.data))

/-- Python `s.strip()` on a character list: drop leading and trailing
whitespace. -/
def pyStripL (s : List Char) : List Char :=
  List.dropWhile isPySpace (List.reverse (List.dropWhile isPySpace (List.reverse s)))

/-- Python `s.strip()`. -/
def pyStrip (s : String) : String :=
  String.mk (pyStripL s.data)

/-- Python `s[:-1]`: drop the final character (identity on `""`). -/
def pyDropLast (s : String) : String :=
  String.mk s.data.dropLast

/-- Python `s.replace(".", "")` as used for paragraph references
(retsinformation.py line 204): remove every `'.'` character. -/
def removeDots (s : String) : String :=
  String.mk (s.data.filter (fun c => c ≠ '.'))

/-- Python `s.replace("Kap", "")` (retsinformation.py line 176): remove every
occurrence of the substring `"Kap"`, scanning left to right. -/
def removeKapL : List Char → List Char
  | [] => []
  | 'K' :: 'a' :: 'p' :: rest => removeKapL rest
  | c :: rest => c :: removeKapL rest

/-- Python `s.replace("Kap", "")` on `String`. -/
def removeKap (s : String) : String :=
  String.mk (removeKapL s.data)

/-- ASCII digit test (regex `\d`, restricted to ASCII as in the source data). -/
def isDigitCh (c : Char) : Bool :=
  '0' ≤ c && c ≤ '9'

/-- Numeric value of a digit string (used for regex groups, all digits). -/
def digitsToNat (ds : List Char) : Nat :=
  List.foldl (fun a c => a * 10 + (c.toNat - 48)) 0 ds

/-! ## The element tree (BeautifulSoup `Tag` / `NavigableString`) -/

mutual
/-- An HTML node: a `NavigableString` or a `Tag` with a name, an optional
`id` attribute, a (possibly empty) list of classes, and children. -/
inductive Node : Type where
  | text (s : String) : Node
  | elem (name : String) (idAttr : Option String) (classes : List String)
      (children : NodeList) : Node

/-- Children of a tag (a specialised list so that all tree traversals are
structurally recursive). -/
inductive NodeList : Type where
  | nil : NodeList
  | cons (n : Node) (ns : NodeList) : NodeList
end

mutual
def Node.decEq : (a b : Node) → Decidable (a = b)
  | Node.text s, Node.text t =>
    if h : s = t then Decidable.isTrue (by rw [h])
    else Decidable.isFalse (by intro hh; injection hh; contradiction)
  | Node.text _, Node.elem _ _ _ _ =>
    Decidable.isFalse (by intro hh; exact Node.noConfusion hh)
  | Node.elem _ _ _ _, Node.text _ =>
    Decidable.isFalse (by intro hh; exact Node.noConfusion hh)
  | Node.elem n i c cs, Node.elem n' i' c' cs' =>
    if h1 : n = n' then
      if h2 : i = i' then
        if h3 : c = c' then
          match NodeList.decEq cs cs' with
          | Decidable.isTrue h4 => Decidable.isTrue (by rw [h1, h2, h3, h4])
          | Decidable.isFalse h4 =>
            Decidable.isFalse (by intro hh; injection hh; contradiction)
        else Decidable.isFalse (by intro hh; injection hh; contradiction)
      else Decidable.isFalse (by intro hh; injection hh; contradiction)
    else Decidable.isFalse (by intro hh; injection hh; contradiction)

def NodeList.decEq : (a b : NodeList) → Decidable (a = b)
  | NodeList.nil, NodeList.nil => Decidable.isTrue rfl
  | NodeList.nil, NodeList.cons _ _ =>
    Decidable.isFalse (by intro hh; exact NodeList.noConfusion hh)
  | NodeList.cons _ _, NodeList.nil =>
    Decidable.isFalse (by intro hh; exact NodeList.noConfusion hh)
  | NodeList.cons n ns, NodeList.cons m ms =>
    match Node.decEq n m with
    | Decidable.isTrue h1 =>
      match NodeList.decEq ns ms with
      | Decidable.isTrue h2 => Decidable.isTrue (by rw [h1, h2])
      | Decidable.isFalse h2 =>
        Decidable.isFalse (by intro hh; injection hh; contradiction)
    | Decidable.isFalse h1 =>
      Decidable.isFalse (by intro hh; injection hh; contradiction)
end

instance : DecidableEq Node := Node.decEq
instance : DecidableEq NodeList := NodeList.decEq

/-- Build a `NodeList` from a `List Node` (for writing concrete documents). -/
def nodesOf : List Node → NodeList
  | [] => NodeList.nil
  | n :: ns => NodeList.cons n (nodesOf ns)

/-- `tag.get("class", [])`: the class list of a tag (empty for strings). -/
def Node.classes : Node → List String
  | Node.text _ => []
  | Node.elem _ _ c _ => c

/-- `tag.get("id")`: the `id` attribute, `None` when absent. -/
def Node.idAttr : Node → Option String
  | Node.text _ => none
  | Node.elem _ i _ _ => i

/-- The tag name (`""` for strings, which are never matched by name). -/
def Node.tagName : Node → String
  | Node.text _ => ""
  | Node.elem n _ _ _ => n

/-- Whether a node is a `NavigableString`. -/
def Node.isTextNode : Node → Bool
  | Node.text _ => true
  | Node.elem _ _ _ _ => false

mutual
/-- `element.get_text()` / `element.text`: the concatenation of all
descendant strings in document order. -/
def Node.getText : Node → String
  | Node.text s => s
  | Node.elem _ _ _ cs => NodeList.getTextL cs

def NodeList.getTextL : NodeList → String
  | NodeList.nil => ""
  | NodeList.cons n ns => Node.getText n ++ NodeList.getTextL ns
end

mutual
/-- `element.get_text(strip=True)`: each descendant string is stripped, then
all are concatenated in document order. -/
def Node.getTextStrip : Node → String
  | Node.text s => pyStrip s
  | Node.elem _ _ _ cs => NodeList.getTextStripL cs

def NodeList.getTextStripL : NodeList → String
  | NodeList.nil => ""
  | NodeList.cons n ns => Node.getTextStrip n ++ NodeList.getTextStripL ns
end

mutual
/-- `element.find("span", {"class": cls})`: first descendant span (document
order, depth first) carrying `cls` among its classes. -/
def Node.findSpanByClass : Node → String → Option Node
  | Node.text _, _ => none
  | Node.elem _ _ _ cs, cls => NodeList.findSpanByClassL cs cls

def NodeList.findSpanByClassL : NodeList → String → Option Node
  | NodeList.nil, _ => none
  | NodeList.cons (Node.text _) ns, cls => NodeList.findSpanByClassL ns cls
  | NodeList.cons (Node.elem nm i cl ch) ns, cls =>
    if nm = "span" ∧ cls ∈ cl then some (Node.elem nm i cl ch)
    else
      match NodeList.findSpanByClassL ch cls with
      | some r => some r
      | none => NodeList.findSpanByClassL ns cls
end

/-- Python `x and x.startswith("Kap")` for an optional attribute value:
`None` and `""` are falsy, otherwise test the `"Kap"` prefix. -/
def truthyStartsWithKap : Option String → Bool
  | none => false
  | some v =>
    match v.data with
    | 'K' :: 'a' :: 'p' :: _ => true
    | _ => false

mutual
/-- `p_elem.find("span", id=lambda x: x and x.startswith("Kap"))`: first
descendant span whose `id` attribute is a truthy string starting with
`"Kap"` (retsinformation.py line 171). -/
def Node.findSpanKap : Node → Option Node
  | Node.text _ => none
  | Node.elem _ _ _ cs => NodeList.findSpanKapL cs

def NodeList.findSpanKapL : NodeList → Option Node
  | NodeList.nil => none
  | NodeList.cons (Node.text _) ns => NodeList.findSpanKapL ns
  | NodeList.cons (Node.elem nm i cl ch) ns =>
    if nm = "span" ∧ truthyStartsWithKap i = true then
      some (Node.elem nm i cl ch)
    else
      match NodeList.findSpanKapL ch with
      | some r => some r
      | none => NodeList.findSpanKapL ns
end

mutual
/-- `next_p_elem.find("span")`: first descendant span of any class
(retsinformation.py line 187). -/
def Node.findFirstSpan : Node → Option Node
  | Node.text _ => none
  | Node.elem _ _ _ cs => NodeList.findFirstSpanL cs

def NodeList.findFirstSpanL : NodeList → Option Node
  | NodeList.nil => none
  | NodeList.cons (Node.text _) ns => NodeList.findFirstSpanL ns
  | NodeList.cons (Node.elem nm i cl ch) ns =>
    if nm = "span" then some (Node.elem nm i cl ch)
    else
      match NodeList.findFirstSpanL ch with
      | some r => some r
      | none => NodeList.findFirstSpanL ns
end

/-- `p_elem.find_next("p", class_="KapitelOverskrift2")` restricted to the
parser's walk: the first later element (in document order) that is a `<p>`
carrying the given class (retsinformation.py line 178). -/
def findNextPWithClass (rest : List Node) (cls : String) : Option Node :=
  rest.find? (fun n => Node.tagName n == "p" && (Node.classes n).contains cls)

/-- Keep only the `NavigableString` children.  This is the net effect on an
element of `for child in element.find_all(True): child.extract()`
(retsinformation.py lines 35-36): every descendant tag is removed in place,
leaving only the element's direct string children. -/
def NodeList.filterTexts : NodeList → NodeList
  | NodeList.nil => NodeList.nil
  | NodeList.cons (Node.text s) ns => NodeList.cons (Node.text s) (NodeList.filterTexts ns)
  | NodeList.cons (Node.elem _ _ _ _) ns => NodeList.filterTexts ns

/-! ## Error taxonomy

The Python source raises a single `ParserError` class with distinct
messages, plus pydantic validation errors and uncaught `ValueError`s.  The
spec's taxonomy names them `MissingField`, `MalformedField`,
`StructuralError`, `InvalidStructuredText`.  Each constructor below tags one
of those identities and carries the source's message. -/

inductive PError : Type where
  /-- `MissingField`: a required element or attribute could not be located. -/
  | missing (msg : String) : PError
  /-- `MalformedField`: an element was found but its content did not match
  the expected pattern. -/
  | malformed (msg : String) : PError
  /-- `StructuralError`: a structural precondition of the walk was violated. -/
  | structuralErr (msg : String) : PError
  /-- A pydantic validation failure (`InvalidStructuredText` and required
  string fields receiving `None`). -/
  | validation (msg : String) : PError
  /-- An uncaught Python `ValueError` (`int()` / `strptime` failures). -/
  | valueError (msg : String) : PError
  /-- `get_cleaned_text` called on a `NavigableString`. -/
  | notTag (msg : String) : PError
deriving DecidableEq, Repr

instance {ε α : Type} [DecidableEq ε] [DecidableEq α] : DecidableEq (Except ε α) :=
  fun a b =>
    match a, b with
    | Except.ok x, Except.ok y =>
      if h : x = y then Decidable.isTrue (by rw [h])
      else Decidable.isFalse (by intro hh; injection hh; contradiction)
    | Except.error x, Except.error y =>
      if h : x = y then Decidable.isTrue (by rw [h])
      else Decidable.isFalse (by intro hh; injection hh; contradiction)
    | Except.ok _, Except.error _ =>
      Decidable.isFalse (by intro hh; exact Except.noConfusion hh)
    | Except.error _, Except.ok _ =>
      Decidable.isFalse (by intro hh; exact Except.noConfusion hh)

/-- `get_cleaned_text(element)` (retsinformation.py lines 21-39), pure view:
reject strings, remove all descendant tags, extract the remaining text with
`get_text(strip=True)`, and collapse whitespace with `" ".join(...split())`.
The in-place mutation the Python function performs on `element` is modelled
separately by `get_cleaned_text_run`. -/
def get_cleaned_text : Node → Except PError String
  | Node.text s => Except.error (PError.notTag ("Element " ++ s ++ " is not a Tag."))
  | Node.elem n i c cs =>
    Except.ok (normalizeStr (Node.getTextStrip (Node.elem n i c (NodeList.filterTexts cs))))

/-- `get_cleaned_text(element)` with its side effect made explicit: the
returned pair is (cleaned text, the element as the call leaves it).  The
Python implementation extracts every descendant tag from `element` itself —
there is no clone — so the post-state keeps only direct string children. -/
def get_cleaned_text_run : Node → Except PError (String × Node)
  | Node.text s => Except.error (PError.notTag ("Element " ++ s ++ " is not a Tag."))
  | Node.elem n i c cs =>
    Except.ok (normalizeStr (Node.getTextStrip (Node.elem n i c (NodeList.filterTexts cs))),
      Node.elem n i c (NodeList.filterTexts cs))

/-- `get_attr(tag, "id")` (retsinformation.py lines 42-61): the attribute
value, or a `ParserError` when absent. -/
def get_attr_id (t : Node) : Except PError String :=
  match Node.idAttr t with
  | some v => Except.ok v
  | none => Except.error (PError.missing "Tag does not have attribute id")

/-! ## Data model (src/paraglide/data/models.py) -/

inductive TextType : Type where
  | plain : TextType
  | list : TextType
deriving DecidableEq, Repr

/-- `StructuredText` (models.py lines 14-34). -/
structure StructuredText : Type where
  type : TextType
  text : String
  guid : Option String
  reference : Option String
deriving DecidableEq, Repr

/-- The pydantic constructor of `StructuredText` with its `model_validator`
`checks_when_type_is_list` (models.py lines 24-34): when `type` is `list`,
`guid` and `reference` must both be non-`None`. -/
def mkStructuredText (type : TextType) (text : String) (guid : Option String)
    (reference : Option String) : Except PError StructuredText :=
  if type = TextType.list ∧ (guid = none ∨ reference = none) then
    Except.error (PError.validation "guid and reference must be filled if type is list")
  else
    Except.ok ⟨type, text, guid, reference⟩

/-- `StatuteSection` (models.py lines 37-42). -/
structure StatuteSection : Type where
  guid : String
  reference : String
  texts : List StructuredText
deriving DecidableEq, Repr

/-- `StatuteParagraph` (models.py lines 45-54). -/
structure StatuteParagraph : Type where
  guid : String
  id : String
  reference : String
  texts : List StructuredText
  sections : List StatuteSection
deriving DecidableEq, Repr

/-- `StatuteChapter` (models.py lines 57-63). -/
structure StatuteChapter : Type where
  number : Int
  title : String
  guid : String
  paragraphs : List StatuteParagraph
deriving DecidableEq, Repr

/-- A calendar date as produced by `datetime.strptime(_, "%d/%m/%Y")`. -/
structure PDate : Type where
  year : Nat
  month : Nat
  day : Nat
deriving DecidableEq, Repr

/-- `Statute` (models.py lines 66-72). -/
structure Statute : Type where
  number : Int
  date : PDate
  title : String
  chapters : List StatuteChapter
deriving DecidableEq, Repr

/-! ## Identification heading: the regex and `strptime` -/

/-- Expect a literal run of characters; return the remaining input. -/
def eatLit : List Char → List Char → Option (List Char)
  | [], s => some s
  | _ :: _, [] => none
  | p :: ps, c :: cs => if p = c then eatLit ps cs else none

/-- Expect one regex `\s` character. -/
def eatSpace : List Char → Option (List Char)
  | [] => none
  | c :: cs => if isPySpace c then some cs else none

/-- Expect exactly `n` digit characters; return them and the rest. -/
def eatDigits : Nat → List Char → Option (List Char × List Char)
  | 0, s => some ([], s)
  | _ + 1, [] => none
  | n + 1, c :: cs =>
    if isDigitCh c then
      match eatDigits n cs with
      | some (ds, rest) => some (c :: ds, rest)
      | none => none
    else none

/-- Match the pattern `LBK\snr\s(\d{1,10})\saf\s(\d{2})/(\d{2})/(\d{4})`
(retsinformation.py line 103) anchored at the start of the input.  The
greedy group `\d{1,10}` followed by `\s` succeeds only on the maximal digit
run (1-10 digits) followed by whitespace, which the explicit
`List.takeWhile` below reproduces exactly.  Returns
(number, day, month, year) digits as group values. -/
def matchIdDateAt (s : List Char) : Option (Nat × Nat × Nat × Nat) :=
  match eatLit ['L', 'B', 'K'] s with
  | none => none
  | some s1 =>
    match eatSpace s1 with
    | none => none
    | some s2 =>
      match eatLit ['n', 'r'] s2 with
      | none => none
      | some s3 =>
        match eatSpace s3 with
        | none => none
        | some s4 =>
          let ds := s4.takeWhile isDigitCh
          let s5 := s4.dropWhile isDigitCh
          if ds.length = 0 ∨ 10 < ds.length then none
          else
            match eatSpace s5 with
            | none => none
            | some s6 =>
              match eatLit ['a', 'f'] s6 with
              | none => none
              | some s7 =>
                match eatSpace s7 with
                | none => none
                | some s8 =>
                  match eatDigits 2 s8 with
                  | none => none
                  | some (d1, s9) =>
                    match eatLit ['/'] s9 with
                    | none => none
                    | some s10 =>
                      match eatDigits 2 s10 with
                      | none => none
                      | some (d2, s11) =>
                        match eatLit ['/'] s11 with
                        | none => none
                        | some s12 =>
                          match eatDigits 4 s12 with
                          | none => none
                          | some (d3, _) =>
                            some (digitsToNat ds, digitsToNat d1,
                              digitsToNat d2, digitsToNat d3)

/-- `re.search`: try the pattern at every start position, left to right. -/
def searchIdDate (s : List Char) : Option (Nat × Nat × Nat × Nat) :=
  match matchIdDateAt s with
  | some r => some r
  | none =>
    match s with
    | [] => none
    | _ :: rest => searchIdDate rest

/-- Gregorian leap year (as validated by `datetime`). -/
def isLeapYear (y : Nat) : Bool :=
  (y % 4 == 0 && y % 100 != 0) || y % 400 == 0

/-- Days in a month (as validated by `datetime`). -/
def daysInMonth (y m : Nat) : Nat :=
  if m = 2 then (if isLeapYear y then 29 else 28)
  else if m = 4 ∨ m = 6 ∨ m = 9 ∨ m = 11 then 30
  else 31

/-- `datetime.strptime(d + "/" + m + "/" + y, "%d/%m/%Y")`
(retsinformation.py lines 107-109): validates the calendar date, raising
`ValueError` on an impossible day/month/year. -/
def strptimeDMY (d m y : Nat) : Except PError PDate :=
  if 1 ≤ y ∧ y ≤ 9999 ∧ 1 ≤ m ∧ m ≤ 12 ∧ 1 ≤ d ∧ d ≤ daysInMonth y m then
    Except.ok ⟨y, m, d⟩
  else
    Except.error (PError.valueError "time data does not match format %d/%m/%Y")

/-- Python `int(s)`: optional sign and a non-empty digit run, after
stripping whitespace; raises `ValueError` otherwise. -/
def pyInt (s : String) : Except PError Int :=
  match pyStripL s.data with
  | '-' :: ds =>
    if ds ≠ [] ∧ ds.all isDigitCh then Except.ok (-(digitsToNat ds : Int))
    else Except.error (PError.valueError ("invalid literal for int() with base 10: " ++ s))
  | '+' :: ds =>
    if ds ≠ [] ∧ ds.all isDigitCh then Except.ok (digitsToNat ds : Int)
    else Except.error (PError.valueError ("invalid literal for int() with base 10: " ++ s))
  | ds =>
    if ds ≠ [] ∧ ds.all isDigitCh then Except.ok (digitsToNat ds : Int)
    else Except.error (PError.valueError ("invalid literal for int() with base 10: " ++ s))

/-! ## The parser (`RetsinformationStatuteParser`) -/

/-- The document as the parser queries it: `soup.find("h5", {"class":
"d-sm-inline m-0 mr-sm-2"})`, `soup.select_one("div.document-content
p.Titel2")`, and `soup.select("div.document-content p")` in document
order.  The three query results stand for the one in-memory HTML document
handed to `_parse`. -/
structure Soup : Type where
  heading : Option Node
  titleElem : Option Node
  bodyPs : List Node
deriving DecidableEq

/-- `_extract_id_and_date` (retsinformation.py lines 94-112). -/
def extract_id_and_date (soup : Soup) : Except PError (Int × PDate) :=
  match soup.heading with
  | none =>
    Except.error (PError.missing
      "Could not find <h5> element with class \"d-sm-inline m-0 mr-sm-2\"")
  | some h5 =>
    let idDateStr := Node.getText h5
    match searchIdDate idDateStr.data with
    | some (number, d, m, y) =>
      match strptimeDMY d m y with
      | Except.error e => Except.error e
      | Except.ok date => Except.ok ((number : Int), date)
    | none =>
      Except.error (PError.malformed
        ("Could not extract ID and date from \"" ++ idDateStr ++ "\""))

/-- `_extract_title` (retsinformation.py lines 114-121). -/
def extract_title (soup : Soup) : Except PError String :=
  match soup.titleElem with
  | some p => get_cleaned_text p
  | none =>
    Except.error (PError.missing
      "Could not extract title. No <p> element with class \"Titel2\" found")

/-- `_parse_chapter` (retsinformation.py lines 169-194).  `rest` is the
sequence of elements after the chapter-start element in document order,
searched by `find_next` for the chapter-title element. -/
def parse_chapter (p : Node) (rest : List Node) : Except PError StatuteChapter :=
  let guid := Node.idAttr p
  match Node.findSpanKap p with
  | none =>
    Except.error (PError.missing "Could not find <span> element with id starting with 'Kap'")
  | some span =>
    match get_attr_id span with
    | Except.error e => Except.error e
    | Except.ok idv =>
      match pyInt (removeKap idv) with
      | Except.error e => Except.error e
      | Except.ok number =>
        match findNextPWithClass rest "KapitelOverskrift2" with
        | none =>
          Except.error (PError.missing "Could not find <p> element with class 'KapitelOverskrift2'")
        | some nextP =>
          match Node.findFirstSpan nextP with
          | none => Except.error (PError.missing "Could not find title for chapter")
          | some titleElem =>
            match get_cleaned_text titleElem with
            | Except.error e => Except.error e
            | Except.ok title =>
              match guid with
              | none => Except.error (PError.validation "Input should be a valid string: guid")
              | some g => Except.ok ⟨number, title, g, []⟩

/-- `_parse_paragraph` (retsinformation.py lines 196-211).  Note line 204:
the reference is the marker span's text with every `'.'` removed
(`replace(".", "")`). -/
def parse_paragraph (p : Node) : Except PError StatuteParagraph :=
  let guid := Node.idAttr p
  match Node.findSpanByClass p "ParagrafNr" with
  | none => Except.error (PError.missing "Could not find <span> element with class 'ParagrafNr'")
  | some span =>
    match get_attr_id span with
    | Except.error e => Except.error e
    | Except.ok id =>
      match get_cleaned_text p with
      | Except.error e => Except.error e
      | Except.ok text =>
        let reference := removeDots (Node.getText span)
        match mkStructuredText TextType.plain text none none with
        | Except.error e => Except.error e
        | Except.ok t =>
          match guid with
          | none => Except.error (PError.validation "Input should be a valid string: guid")
          | some g => Except.ok ⟨g, id, reference, [t], []⟩

/-- `_parse_list_block` (retsinformation.py lines 213-222). -/
def parse_list_block (p : Node) : Except PError StructuredText :=
  match Node.findSpanByClass p "Liste1Nr" with
  | none => Except.error (PError.missing "Could not find <span> element with class 'Liste1Nr'")
  | some span =>
    match get_attr_id span with
    | Except.error e => Except.error e
    | Except.ok guid =>
      let reference := Node.getText span
      match get_cleaned_text p with
      | Except.error e => Except.error e
      | Except.ok text =>
        mkStructuredText TextType.list text (some guid) (some reference)

/-- `_parse_section` (retsinformation.py lines 224-235): the reference is
the marker span's text, stripped, with its final character removed. -/
def parse_section (p : Node) : Except PError StatuteSection :=
  match Node.findSpanByClass p "StkNr" with
  | none => Except.error (PError.missing "Could not find <span> element with class 'StkNr'")
  | some span =>
    match get_attr_id span with
    | Except.error e => Except.error e
    | Except.ok guid =>
      let reference := pyDropLast (pyStrip (Node.getText span))
      match get_cleaned_text p with
      | Except.error e => Except.error e
      | Except.ok text =>
        match mkStructuredText TextType.plain text none none with
        | Except.error e => Except.error e
        | Except.ok t => Except.ok ⟨guid, reference, [t]⟩

/-! ## The main walk (`_parse_chapters`, retsinformation.py lines 123-167)

The Python loop mutates three references `current_chapter`,
`current_paragraph`, `current_section`.  Whenever they are set they alias
the most recently appended chapter / its last paragraph / that paragraph's
last section, so the state is the chapter list built so far plus three
flags, and every append through a current reference is an update of the
corresponding last element. -/

/-- The walk state: chapters built so far and whether each of
`current_chapter` / `current_paragraph` / `current_section` is set. -/
structure WState : Type where
  chapters : List StatuteChapter
  hasChapter : Bool
  hasParagraph : Bool
  hasSection : Bool
deriving DecidableEq, Repr

/-- Apply `f` to the last element of a list (identity on `[]`): a mutation
through a reference that aliases the most recently appended element. -/
def modifyLast {α : Type} (f : α → α) : List α → List α
  | [] => []
  | [a] => [f a]
  | a :: rest => a :: modifyLast f rest

/-- `current_chapter.paragraphs.append(...)` (retsinformation.py line 141). -/
def appendParagraphToLastChapter (chs : List StatuteChapter) (par : StatuteParagraph) :
    List StatuteChapter :=
  modifyLast (fun c => { c with paragraphs := c.paragraphs ++ [par] }) chs

/-- `current_paragraph.sections.append(...)` (retsinformation.py line 159). -/
def appendSectionToLastParagraph (chs : List StatuteChapter) (sec : StatuteSection) :
    List StatuteChapter :=
  modifyLast (fun c =>
    { c with paragraphs := modifyLast (fun par =>
        { par with sections := par.sections ++ [sec] }) c.paragraphs }) chs

/-- `current_paragraph.texts.append(...)` (retsinformation.py line 153). -/
def appendTextToLastParagraph (chs : List StatuteChapter) (tb : StructuredText) :
    List StatuteChapter :=
  modifyLast (fun c =>
    { c with paragraphs := modifyLast (fun par =>
        { par with texts := par.texts ++ [tb] }) c.paragraphs }) chs

/-- `current_section.texts.append(...)` (retsinformation.py line 151). -/
def appendTextToLastSection (chs : List StatuteChapter) (tb : StructuredText) :
    List StatuteChapter :=
  modifyLast (fun c =>
    { c with paragraphs := modifyLast (fun par =>
        { par with sections := modifyLast (fun s =>
            { s with texts := s.texts ++ [tb] }) par.sections }) c.paragraphs }) chs

/-- Outcome of one iteration of the walk loop. -/
inductive StepResult : Type where
  | cont (st : WState) : StepResult
  | stop : StepResult
  | fail (e : PError) : StepResult
deriving DecidableEq, Repr

/-- One iteration of the `for p_elem in p_elements` loop
(retsinformation.py lines 130-165): the `elif` chain dispatches on the
element's classes in the source's order — `Kapitel`, `Paragraf`, `Liste1`,
`Stk2`, `IkraftTekst` — and otherwise ignores the element. -/
def walkStep (st : WState) (p : Node) (rest : List Node) : StepResult :=
  if (Node.classes p).contains "Kapitel" then
    match parse_chapter p rest with
    | Except.error e => StepResult.fail e
    | Except.ok ch => StepResult.cont ⟨st.chapters ++ [ch], true, false, false⟩
  else if (Node.classes p).contains "Paragraf" then
    if st.hasChapter = false then
      StepResult.fail (PError.structuralErr "Found paragraph outside chapter")
    else
      match parse_paragraph p with
      | Except.error e => StepResult.fail e
      | Except.ok par =>
        StepResult.cont ⟨appendParagraphToLastChapter st.chapters par, st.hasChapter, true, false⟩
  else if (Node.classes p).contains "Liste1" then
    if st.hasParagraph = false then
      StepResult.fail (PError.structuralErr "Found list outside paragraph")
    else
      match parse_list_block p with
      | Except.error e => StepResult.fail e
      | Except.ok tb =>
        if st.hasSection then
          StepResult.cont
            ⟨appendTextToLastSection st.chapters tb, st.hasChapter, st.hasParagraph, st.hasSection⟩
        else
          StepResult.cont
            ⟨appendTextToLastParagraph st.chapters tb, st.hasChapter, st.hasParagraph, st.hasSection⟩
  else if (Node.classes p).contains "Stk2" then
    if st.hasParagraph = false then
      StepResult.fail (PError.structuralErr "Found section outside paragraph")
    else
      match parse_section p with
      | Except.error e => StepResult.fail e
      | Except.ok sec =>
        StepResult.cont
          ⟨appendSectionToLastParagraph st.chapters sec, st.hasChapter, st.hasParagraph, true⟩
  else if (Node.classes p).contains "IkraftTekst" then
    StepResult.stop
  else
    StepResult.cont st

/-- The walk over the remaining elements, stopping at `break` and aborting
on errors. -/
def walkBody (st : WState) : List Node → Except PError (List StatuteChapter)
  | [] => Except.ok st.chapters
  | p :: rest =>
    match walkStep st p rest with
    | StepResult.cont st' => walkBody st' rest
    | StepResult.stop => Except.ok st.chapters
    | StepResult.fail e => Except.error e

/-- `_parse_chapters` (retsinformation.py lines 123-167). -/
def parse_chapters (ps : List Node) : Except PError (List StatuteChapter) :=
  walkBody ⟨[], false, false, false⟩ ps

/-- `_parse` (retsinformation.py lines 82-92). -/
def parse (soup : Soup) : Except PError Statute :=
  match extract_id_and_date soup with
  | Except.error e => Except.error e
  | Except.ok (number, date) =>
    match extract_title soup with
    | Except.error e => Except.error e
    | Except.ok title =>
      match parse_chapters soup.bodyPs with
      | Except.error e => Except.error e
      | Except.ok chapters => Except.ok ⟨number, date, title, chapters⟩

/-! ## Observers, dispatch predicates and spec-side models used by the
theorems -/

/-- The texts of the paragraph `current_paragraph` aliases (the last
paragraph of the last chapter), when both exist. -/
def lastParagraphTexts (chs : List StatuteChapter) : Option (List StructuredText) :=
  match chs.getLast? with
  | none => none
  | some c =>
    match c.paragraphs.getLast? with
    | none => none
    | some par => some par.texts

/-- The texts of the section `current_section` aliases (the last section of
the last paragraph of the last chapter), when all three exist. -/
def lastSectionTexts (chs : List StatuteChapter) : Option (List StructuredText) :=
  match chs.getLast? with
  | none => none
  | some c =>
    match c.paragraphs.getLast? with
    | none => none
    | some par =>
      match par.sections.getLast? with
      | none => none
      | some s => some s.texts

/-- Whether the `elif` chain of the walk dispatches an element to the
end-of-content branch: it carries `IkraftTekst` and none of the four
higher-priority markers. -/
def dispatchesEndOfContent (p : Node) : Bool :=
  !(Node.classes p).contains "Kapitel" && !(Node.classes p).contains "Paragraf" &&
    !(Node.classes p).contains "Liste1" && !(Node.classes p).contains "Stk2" &&
    (Node.classes p).contains "IkraftTekst"

/-- The prefix of the body sequence before the first element dispatched to
the end-of-content branch. -/
def truncAtEndOfContent (ps : List Node) : List Node :=
  ps.takeWhile (fun p => !dispatchesEndOfContent p)

/-- Non-degeneracy of the publisher attributes a paragraph-start element
carries: its own `id` attribute, its marker span's `id` attribute, and the
span's visible text (beyond `'.'` characters) are non-empty whenever
present.  The parser never checks this; it is the hypothesis under which
parsed paragraph fields are non-empty. -/
def goodParagraphElem (p : Node) : Bool :=
  (match Node.idAttr p with
   | none => true
   | some v => v != "") &&
  (match Node.findSpanByClass p "ParagrafNr" with
   | none => true
   | some sp =>
     (match Node.idAttr sp with
      | none => true
      | some w => w != "") &&
     (Node.getText sp).data.any (fun c => c ≠ '.'))

/-- Modelled from the spec: "its reference is that span's visible text with
trailing punctuation (`.`) stripped".  Stated only for comparison against
the source's `replace(".", "")` on line 204. -/
def specStripTrailingDot (s : String) : String :=
  if s.data.getLast? = some '.' then String.mk s.data.dropLast else s

/-! ## Concrete documents used by witnesses and counterexamples -/

/-- A well-formed chapter-start element (`<p class="Kapitel">` with a
`Kap1` marker span). -/
def kapElem1 : Node :=
  Node.elem "p" (some "chguid") ["Kapitel"]
    (nodesOf [Node.elem "span" (some "Kap1") [] (nodesOf [Node.text "Kapitel 1"])])

/-- The chapter-title element that `find_next` locates for `kapElem1`. -/
def kapTitleElem1 : Node :=
  Node.elem "p" none ["KapitelOverskrift2"]
    (nodesOf [Node.elem "span" none [] (nodesOf [Node.text "Formål "])])

/-- A well-formed paragraph-start element (`<p class="Paragraf">`). -/
def parElem1 : Node :=
  Node.elem "p" (some "pguid") ["Paragraf"]
    (nodesOf [Node.elem "span" (some "Par1") ["ParagrafNr"] (nodesOf [Node.text "§ 1."]),
      Node.text " Intro  tekst. "])

/-- A well-formed subsection-start element (`<p class="Stk2">`). -/
def stkElem1 : Node :=
  Node.elem "p" none ["Stk2"]
    (nodesOf [Node.elem "span" (some "sguid") ["StkNr"] (nodesOf [Node.text "Stk. 2."]),
      Node.text " sektion"])

/-- A well-formed list-item element (`<p class="Liste1">`). -/
def listElem1 : Node :=
  Node.elem "p" none ["Liste1"]
    (nodesOf [Node.elem "span" (some "lguid") ["Liste1Nr"] (nodesOf [Node.text "1)"]),
      Node.text " pkt"])

/-- An end-of-content element (`<p class="IkraftTekst">`). -/
def eocElem1 : Node :=
  Node.elem "p" none ["IkraftTekst"] NodeList.nil

/-- A concrete document whose heading reads `"LBK nr 1180 af 21/09/2023"`. -/
def soupLBK1180 : Soup :=
  ⟨some (Node.elem "h5" none ["d-sm-inline", "m-0", "mr-sm-2"]
      (nodesOf [Node.text "LBK nr 1180 af 21/09/2023"])),
    some (Node.elem "p" none ["Titel2"] (nodesOf [Node.text "Bekendtgørelse af barselsloven"])),
    []⟩

/-- A paragraph-start element whose `ParagrafNr` span text `"1.2."`
contains an interior `'.'`. -/
def parElemDots : Node :=
  Node.elem "p" (some "pdots") ["Paragraf"]
    (nodesOf [Node.elem "span" (some "Par1x") ["ParagrafNr"] (nodesOf [Node.text "1.2."]),
      Node.text " brødtekst"])

/-- The marker span of `parElemDots`. -/
def spanDots : Node :=
  Node.elem "span" (some "Par1x") ["ParagrafNr"] (nodesOf [Node.text "1.2."])

/-- The paragraph the parser produces from `parElemDots`. -/
def parDots : StatuteParagraph :=
  ⟨"pdots", "Par1x", "12", [⟨TextType.plain, "brødtekst", none, none⟩], []⟩

/-- An element with one string child and one tag child, for observing the
side effect of `get_cleaned_text`. -/
def mutElem : Node :=
  Node.elem "p" none []
    (nodesOf [Node.text "a ", Node.elem "span" none [] (nodesOf [Node.text "x"])])

/-- `mutElem` as `get_cleaned_text` leaves it: the tag child is gone. -/
def mutElemAfter : Node :=
  Node.elem "p" none [] (nodesOf [Node.text "a "])

/-- A paragraph-start element whose own `id` attribute is the empty
string. -/
def parElemEmptyGuid : Node :=
  Node.elem "p" (some "") ["Paragraf"]
    (nodesOf [Node.elem "span" (some "Par9") ["ParagrafNr"] (nodesOf [Node.text "§ 9."]),
      Node.text " tekst"])

/-- A full document whose only paragraph element carries `id=""`. -/
def soupEmptyGuid : Soup :=
  ⟨some (Node.elem "h5" none ["d-sm-inline", "m-0", "mr-sm-2"]
      (nodesOf [Node.text "LBK nr 1180 af 21/09/2023"])),
    some (Node.elem "p" none ["Titel2"] (nodesOf [Node.text "Bekendtgørelse af barselsloven"])),
    [kapElem1, kapTitleElem1, parElemEmptyGuid]⟩

/-- The statute `parse` produces from `soupEmptyGuid`. -/
def statuteEmptyGuid : Statute :=
  ⟨1180, ⟨2023, 9, 21⟩, "Bekendtgørelse af barselsloven",
    [⟨1, "Formål", "chguid",
      [⟨"", "Par9", "§ 9", [⟨TextType.plain, "tekst", none, none⟩], []⟩]⟩]⟩

/-- A parsed section, as `_parse_section` produces from `stkElem1`. -/
def sectionW : StatuteSection :=
  ⟨"sguid", "Stk. 2", [⟨TextType.plain, "sektion", none, none⟩]⟩

/-- A parsed paragraph owning `sectionW`. -/
def paragraphW : StatuteParagraph :=
  ⟨"pguid", "Par1", "§ 1", [⟨TextType.plain, "Intro tekst.", none, none⟩], [sectionW]⟩

/-- A parsed chapter owning `paragraphW`. -/
def chapterW : StatuteChapter :=
  ⟨1, "Formål", "chguid", [paragraphW]⟩

/-- A walk state in which a chapter, a paragraph and a section are all
open. -/
def stateW : WState :=
  ⟨[chapterW], true, true, true⟩

/-- The list block `_parse_list_block` produces from `listElem1`. -/
def tbW : StructuredText :=
  ⟨TextType.list, "pkt", some "lguid", some "1)"⟩

/-- A chapter-title element placed after the end-of-content marker. -/
def kapTitleAfterEoc : Node :=
  Node.elem "p" none ["KapitelOverskrift2"]
    (nodesOf [Node.elem "span" none [] (nodesOf [Node.text "Efter"])])

/-- A body in which the only chapter-title element for `kapElem1` sits
after the end-of-content marker, where `find_next` still reaches it. -/
def psCrossingEoc : List Node :=
  [kapElem1, eocElem1, kapTitleAfterEoc]

/-- A body with marker-carrying elements after the end-of-content marker
(but no chapter-title element there). -/
def psTailAfterEoc : List Node :=
  [kapElem1, kapTitleElem1, eocElem1, parElem1, listElem1]

/-- An element carrying both the `Paragraf` and the `Stk2` marker. -/
def parStkElem : Node :=
  Node.elem "p" (some "pboth") ["Paragraf", "Stk2"]
    (nodesOf [Node.elem "span" (some "Par7") ["ParagrafNr"] (nodesOf [Node.text "§ 7."]),
      Node.elem "span" (some "sb") ["StkNr"] (nodesOf [Node.text "Stk. 2."]),
      Node.text " dobbelt"])

/-- The paragraph `_parse_paragraph` produces from `parStkElem`. -/
def parBoth : StatuteParagraph :=
  ⟨"pboth", "Par7", "§ 7", [⟨TextType.plain, "dobbelt", none, none⟩], []⟩

/-- A full document whose paragraph element carries non-degenerate
publisher attributes. -/
def soupAllGood : Soup :=
  ⟨some (Node.elem "h5" none ["d-sm-inline", "m-0", "mr-sm-2"]
      (nodesOf [Node.text "LBK nr 1180 af 21/09/2023"])),
    some (Node.elem "p" none ["Titel2"] (nodesOf [Node.text "Bekendtgørelse af barselsloven"])),
    [kapElem1, kapTitleElem1, parElem1]⟩

/-- The statute `parse` produces from `soupAllGood`. -/
def statuteAllGood : Statute :=
  ⟨1180, ⟨2023, 9, 21⟩, "Bekendtgørelse af barselsloven",
    [⟨1, "Formål", "chguid",
      [⟨"pguid", "Par1", "§ 1", [⟨TextType.plain, "Intro tekst.", none, none⟩], []⟩]⟩]⟩

/-! ## Properties of the text-cleaning transformation -/

theorem pySplitAux_append_word : ∀ (w s acc : List Char),
    (∀ c ∈ w, isPySpace c = false) →
    pySplitAux (w ++ s) acc = pySplitAux s (w.reverse ++ acc)
  | [], s, acc, _ => by simp
  | c :: w', s, acc, h => by
    have hc : isPySpace c = false := h c (by simp)
    have hw' : ∀ x ∈ w', isPySpace x = false := fun x hx => h x (by simp [hx])
    simp only [List.cons_append, pySplitAux, hc, Bool.false_eq_true, if_false,
      List.reverse_cons, List.append_assoc, List.singleton_append]
    exact pySplitAux_append_word w' s (c :: acc) hw'

theorem pySplitAux_words_good : ∀ (s acc : List Char),
    (∀ c ∈ acc, isPySpace c = false) →
    ∀ w ∈ pySplitAux s acc, w ≠ [] ∧ ∀ c ∈ w, isPySpace c = false := by
  intro s
  induction s with
  | nil =>
    intro acc hacc w hw
    simp only [pySplitAux] at hw
    by_cases h : acc = []
    · simp [h] at hw
    · simp only [h, if_false] at hw
      simp only [List.mem_singleton] at hw
      subst hw
      refine ⟨by simpa using h, ?_⟩
      intro c hc
      exact hacc c (by simpa using hc)
  | cons c rest ih =>
    intro acc hacc w hw
    simp only [pySplitAux] at hw
    by_cases hc : isPySpace c
    · simp only [hc, if_true] at hw
      by_cases h : acc = []
      · simp only [h, if_true] at hw
        exact ih [] (by intro x hx; cases hx) w hw
      · simp only [h, if_false] at hw
        rcases List.mem_cons.mp hw with h1 | h1
        · subst h1
          refine ⟨by simpa using h, ?_⟩
          intro x hx
          exact hacc x (by simpa using hx)
        · exact ih [] (by intro x hx; cases hx) w h1
    · simp only [hc, if_false] at hw
      refine ih (c :: acc) ?_ w hw
      intro x hx
      rcases List.mem_cons.mp hx with h1 | h1
      · subst h1; simpa using hc
      · exact hacc x h1

theorem pySplit_joinSpace : ∀ ws : List (List Char),
    (∀ w ∈ ws, w ≠ [] ∧ ∀ c ∈ w, isPySpace c = false) →
    pySplitL (joinSpace ws) = ws
  | [], _ => rfl
  | [w], h => by
    have hw := h w (by simp)
    have h1 : pySplitAux (w ++ []) [] = pySplitAux [] (w.reverse ++ []) :=
      pySplitAux_append_word w [] [] hw.2
    simp only [List.append_nil] at h1
    simp only [pySplitL, joinSpace, h1, pySplitAux]
    have : w.reverse ≠ [] := by simpa using hw.1
    simp [this]
  | w :: w' :: ws, h => by
    have hw := h w (by simp)
    have htail : ∀ x ∈ w' :: ws, x ≠ [] ∧ ∀ c ∈ x, isPySpace c = false :=
      fun x hx => h x (by simp [hx])
    have h1 : pySplitAux (w ++ (' ' :: joinSpace (w' :: ws))) [] =
        pySplitAux (' ' :: joinSpace (w' :: ws)) (w.reverse ++ []) :=
      pySplitAux_append_word w (' ' :: joinSpace (w' :: ws)) [] hw.2
    have hrev : w.reverse ≠ [] := by simpa using hw.1
    have hsp : isPySpace ' ' = true := by decide
    simp only [pySplitL, joinSpace, h1, List.append_nil, pySplitAux, hsp, if_true,
      hrev, if_false, List.reverse_reverse]
    exact congrArg (w :: ·) (pySplit_joinSpace (w' :: ws) htail)

/-- C9. Text cleaning is idempotent: applying the cleaning transformation
`" ".join(s.split())` of `get_cleaned_text` (retsinformation.py line 39) to
text that is already the output of cleaning yields that same text. -/
theorem claim9_text_cleaning_idempotent (s : String) :
    normalizeStr (normalizeStr s) = normalizeStr s := by
  show String.mk (joinSpace (pySplitL (String.mk (joinSpace (pySplitL s.data))).data)) =
    String.mk (joinSpace (pySplitL s.data))
  have hdata : (String.mk (joinSpace (pySplitL s.data))).data = joinSpace (pySplitL s.data) := rfl
  rw [hdata, pySplit_joinSpace (pySplitL s.data)
    (pySplitAux_words_good s.data [] (by intro x hx; cases hx))]

/-! ## The `StructuredText` validator -/

/-- C8. Constructing a `StructuredText` with type `list` fails with a
validation error exactly when `guid` or `reference` is `None`
(models.py lines 24-34); construction with type `plain` never fails. -/
theorem claim8_list_requires_guid_and_reference (text : String)
    (guid reference : Option String) :
    ((∃ stx, mkStructuredText TextType.list text guid reference = Except.ok stx) ↔
      (guid ≠ none ∧ reference ≠ none)) ∧
    ((guid = none ∨ reference = none) →
      ∃ m, mkStructuredText TextType.list text guid reference =
        Except.error (PError.validation m)) ∧
    (∃ stx, mkStructuredText TextType.plain text guid reference = Except.ok stx) := by
  refine ⟨⟨?_, ?_⟩, ?_, ?_⟩
  · rintro ⟨stx, hstx⟩
    by_cases hg : guid = none
    · simp [mkStructuredText, hg] at hstx
    · by_cases hr : reference = none
      · simp [mkStructuredText, hg, hr] at hstx
      · exact ⟨hg, hr⟩
  · rintro ⟨hg, hr⟩
    refine ⟨⟨TextType.list, text, guid, reference⟩, ?_⟩
    simp [mkStructuredText, hg, hr]
  · intro h
    refine ⟨"guid and reference must be filled if type is list", ?_⟩
    rcases h with h | h <;> simp [mkStructuredText, h]
  · refine ⟨⟨TextType.plain, text, guid, reference⟩, ?_⟩
    simp [mkStructuredText]

/-- Witness for C8 at concrete inputs: with both fields present a list text
is constructible, and a plain text needs neither. -/
theorem claim8_witness :
    (∃ stx, mkStructuredText TextType.list "1. pkt" (some "g1") (some "1)") = Except.ok stx) ∧
    (∃ m, mkStructuredText TextType.list "1. pkt" (some "g1") none =
      Except.error (PError.validation m)) ∧
    (∃ stx, mkStructuredText TextType.plain "tekst" none none = Except.ok stx) :=
  ⟨(claim8_list_requires_guid_and_reference "1. pkt" (some "g1") (some "1)")).1.mpr
      ⟨by decide, by decide⟩,
    (claim8_list_requires_guid_and_reference "1. pkt" (some "g1") none).2.1 (Or.inr rfl),
    (claim8_list_requires_guid_and_reference "tekst" none none).2.2⟩

/-! ## Top-level identifier extraction -/

/-- C4. Identifier extraction (retsinformation.py lines 94-112): a heading
reading `"LBK nr 1180 af 21/09/2023"` yields number `1180` and date
2023-09-21; an absent heading fails with the missing-field identity, a
present heading whose text the pattern search rejects fails with the
malformed-field identity, and the two error identities are distinct.  When
the whole parse succeeds on such a document, the statute carries that
number and date. -/
theorem claim4_id_and_date_extraction :
    (∀ (soup : Soup) (h5 : Node), soup.heading = some h5 →
      Node.getText h5 = "LBK nr 1180 af 21/09/2023" →
      extract_id_and_date soup = Except.ok (1180, ⟨2023, 9, 21⟩)) ∧
    (∀ soup : Soup, soup.heading = none →
      extract_id_and_date soup = Except.error (PError.missing
        "Could not find <h5> element with class \"d-sm-inline m-0 mr-sm-2\"")) ∧
    (∀ (soup : Soup) (h5 : Node), soup.heading = some h5 →
      searchIdDate (Node.getText h5).data = none →
      extract_id_and_date soup = Except.error (PError.malformed
        ("Could not extract ID and date from \"" ++ Node.getText h5 ++ "\""))) ∧
    (∀ m m' : String, PError.missing m ≠ PError.malformed m') ∧
    (∀ (soup : Soup) (h5 : Node) (st : Statute), soup.heading = some h5 →
      Node.getText h5 = "LBK nr 1180 af 21/09/2023" →
      parse soup = Except.ok st → st.number = 1180 ∧ st.date = ⟨2023, 9, 21⟩) := by
  have hmain : ∀ (soup : Soup) (h5 : Node), soup.heading = some h5 →
      Node.getText h5 = "LBK nr 1180 af 21/09/2023" →
      extract_id_and_date soup = Except.ok (1180, ⟨2023, 9, 21⟩) := by
    intro soup h5 hh ht
    unfold extract_id_and_date
    rw [hh]
    simp only [ht]
    decide
  refine ⟨hmain, ?_, ?_, ?_, ?_⟩
  · intro soup hh
    unfold extract_id_and_date
    rw [hh]
  · intro soup h5 hh hs
    unfold extract_id_and_date
    rw [hh]
    simp only [hs]
  · intro m m' h
    exact PError.noConfusion h
  · intro soup h5 st hh ht hp
    unfold parse at hp
    rw [hmain soup h5 hh ht] at hp
    cases hT : extract_title soup with
    | error e => rw [hT] at hp; exact Except.noConfusion hp
    | ok title =>
      rw [hT] at hp
      cases hC : parse_chapters soup.bodyPs with
      | error e => rw [hC] at hp; exact Except.noConfusion hp
      | ok chapters =>
        rw [hC] at hp
        injection hp with hp
        subst hp
        exact ⟨rfl, rfl⟩

/-- Witness for C4: the extraction and the full parse evaluated on
`soupLBK1180`. -/
theorem claim4_witness :
    extract_id_and_date soupLBK1180 = Except.ok (1180, ⟨2023, 9, 21⟩) ∧
    (∃ st : Statute, parse soupLBK1180 = Except.ok st ∧
      st.number = 1180 ∧ st.date = ⟨2023, 9, 21⟩) := by
  have h1 := claim4_id_and_date_extraction.1 soupLBK1180
    (Node.elem "h5" none ["d-sm-inline", "m-0", "mr-sm-2"]
      (nodesOf [Node.text "LBK nr 1180 af 21/09/2023"])) rfl (by decide)
  refine ⟨h1, ⟨⟨1180, ⟨2023, 9, 21⟩, "Bekendtgørelse af barselsloven", []⟩, ?_, ?_⟩⟩
  · decide
  · exact claim4_id_and_date_extraction.2.2.2.2 soupLBK1180
      (Node.elem "h5" none ["d-sm-inline", "m-0", "mr-sm-2"]
        (nodesOf [Node.text "LBK nr 1180 af 21/09/2023"]))
      ⟨1180, ⟨2023, 9, 21⟩, "Bekendtgørelse af barselsloven", []⟩ rfl (by decide) (by decide)

/-! ## C5: the paragraph reference strips every dot, not only a trailing
one -/

/-- C5 counterexample: on a marker span reading `"1.2."` the parser's
reference is `"12"` (`replace(".", "")`, retsinformation.py line 204), not
the spec's `"1.2"` (trailing dot stripped). -/
theorem claim5_counterexample :
    parse_paragraph parElemDots = Except.ok parDots ∧
    parDots.reference = "12" ∧
    specStripTrailingDot "1.2." = "1.2" ∧
    parDots.reference ≠ specStripTrailingDot "1.2." := by
  decide

/-- C5 amended: for every parsed paragraph-start element, the resulting
paragraph's reference equals the marker span's visible text with every
`'.'` character removed. -/
theorem claim5_amended_reference_removes_every_dot (p sp : Node) (par : StatuteParagraph)
    (hsp : Node.findSpanByClass p "ParagrafNr" = some sp)
    (hok : parse_paragraph p = Except.ok par) :
    par.reference = removeDots (Node.getText sp) := by
  simp only [parse_paragraph, hsp] at hok
  cases hid : get_attr_id sp with
  | error e => simp [hid] at hok
  | ok idv =>
    simp only [hid] at hok
    cases hct : get_cleaned_text p with
    | error e => simp [hct] at hok
    | ok text =>
      simp only [hct] at hok
      cases hmk : mkStructuredText TextType.plain text none none with
      | error e => simp [hmk] at hok
      | ok t =>
        simp only [hmk] at hok
        cases hg : Node.idAttr p with
        | none => simp [hg] at hok
        | some g =>
          simp only [hg] at hok
          injection hok with h
          rw [← h]

/-- Witness for the amended C5 at `parElemDots`. -/
theorem claim5_witness :
    Node.findSpanByClass parElemDots "ParagrafNr" = some spanDots ∧
    parse_paragraph parElemDots = Except.ok parDots ∧
    parDots.reference = removeDots (Node.getText spanDots) :=
  ⟨by decide, by decide,
    claim5_amended_reference_removes_every_dot parElemDots spanDots parDots
      (by decide) (by decide)⟩

/-! ## C6: `get_cleaned_text` mutates the element it cleans -/

theorem filterTexts_idem : ∀ cs : NodeList,
    NodeList.filterTexts (NodeList.filterTexts cs) = NodeList.filterTexts cs
  | NodeList.nil => rfl
  | NodeList.cons (Node.text s) ns => by
    simp only [NodeList.filterTexts]
    rw [filterTexts_idem ns]
  | NodeList.cons (Node.elem n i c ch) ns => filterTexts_idem ns

/-- C6 counterexample: cleaning `mutElem` changes it — its span child is
extracted, so the post-state differs from the original and a subsequent
descendant query (`find("span")`) no longer finds anything. -/
theorem claim6_counterexample :
    get_cleaned_text_run mutElem = Except.ok ("a", mutElemAfter) ∧
    mutElemAfter ≠ mutElem ∧
    (Node.findFirstSpan mutElem).isSome = true ∧
    Node.findFirstSpan mutElemAfter = none := by
  decide

/-- C6 amended: `get_cleaned_text` returns the cleaned text but extracts
every descendant tag from the element in place (no clone).  Cleaning the
already-mutated element again returns the same text and leaves it
unchanged, and the returned text agrees with the pure reading. -/
theorem claim6_amended_cleaning_extracts_descendant_tags
    (n : String) (i : Option String) (c : List String) (cs : NodeList) :
    ∃ t, get_cleaned_text_run (Node.elem n i c cs) =
        Except.ok (t, Node.elem n i c (NodeList.filterTexts cs)) ∧
      get_cleaned_text_run (Node.elem n i c (NodeList.filterTexts cs)) =
        Except.ok (t, Node.elem n i c (NodeList.filterTexts cs)) ∧
      get_cleaned_text (Node.elem n i c cs) = Except.ok t := by
  refine ⟨normalizeStr (Node.getTextStrip (Node.elem n i c (NodeList.filterTexts cs))),
    rfl, ?_, rfl⟩
  simp only [get_cleaned_text_run, filterTexts_idem]

/-! ## C1: list items attach to the deepest open container -/

theorem getLast?_modifyLast {α : Type} (f : α → α) : ∀ l : List α,
    (modifyLast f l).getLast? = l.getLast?.map f
  | [] => rfl
  | [a] => rfl
  | a :: b :: t => by
    have ih := getLast?_modifyLast f (b :: t)
    have hshape : modifyLast f (a :: b :: t) = a :: modifyLast f (b :: t) := by
      simp only [modifyLast]
    rw [hshape]
    cases ht : modifyLast f (b :: t) with
    | nil => cases t <;> simp [modifyLast] at ht
    | cons y ys =>
      rw [List.getLast?_cons_cons, ← ht, ih, List.getLast?_cons_cons]

theorem lastSectionTexts_appendTextToLastSection (chs : List StatuteChapter)
    (tb : StructuredText) :
    lastSectionTexts (appendTextToLastSection chs tb) =
      (lastSectionTexts chs).map (fun ts => ts ++ [tb]) := by
  unfold lastSectionTexts appendTextToLastSection
  rw [getLast?_modifyLast]
  cases chs.getLast? with
  | none => rfl
  | some c =>
    simp only [Option.map_some']
    rw [getLast?_modifyLast]
    cases c.paragraphs.getLast? with
    | none => rfl
    | some par =>
      simp only [Option.map_some']
      rw [getLast?_modifyLast]
      cases par.sections.getLast? with
      | none => rfl
      | some s => rfl

theorem lastParagraphTexts_appendTextToLastSection (chs : List StatuteChapter)
    (tb : StructuredText) :
    lastParagraphTexts (appendTextToLastSection chs tb) = lastParagraphTexts chs := by
  unfold lastParagraphTexts appendTextToLastSection
  rw [getLast?_modifyLast]
  cases chs.getLast? with
  | none => rfl
  | some c =>
    simp only [Option.map_some']
    rw [getLast?_modifyLast]
    cases c.paragraphs.getLast? with
    | none => rfl
    | some par => rfl

theorem lastParagraphTexts_appendTextToLastParagraph (chs : List StatuteChapter)
    (tb : StructuredText) :
    lastParagraphTexts (appendTextToLastParagraph chs tb) =
      (lastParagraphTexts chs).map (fun ts => ts ++ [tb]) := by
  unfold lastParagraphTexts appendTextToLastParagraph
  rw [getLast?_modifyLast]
  cases chs.getLast? with
  | none => rfl
  | some c =>
    simp only [Option.map_some']
    rw [getLast?_modifyLast]
    cases c.paragraphs.getLast? with
    | none => rfl
    | some par => rfl

theorem mkStructuredText_ok_type (ty : TextType) (x : String) (g r : Option String)
    (stx : StructuredText) (h : mkStructuredText ty x g r = Except.ok stx) :
    stx.type = ty := by
  unfold mkStructuredText at h
  split at h
  · exact Except.noConfusion h
  · injection h with h
    rw [← h]

theorem parse_list_block_ok_type (p : Node) (tb : StructuredText)
    (h : parse_list_block p = Except.ok tb) : tb.type = TextType.list := by
  unfold parse_list_block at h
  cases hsp : Node.findSpanByClass p "Liste1Nr" with
  | none => simp [hsp] at h
  | some span =>
    simp only [hsp] at h
    cases hid : get_attr_id span with
    | error e => simp [hid] at h
    | ok guid =>
      simp only [hid] at h
      cases hct : get_cleaned_text p with
      | error e => simp [hct] at h
      | ok text =>
        simp only [hct] at h
        exact mkStructuredText_ok_type _ _ _ _ _ h

/-- C1. When the walk handles a list-item element (an element whose classes
dispatch it to the `Liste1` branch) while a paragraph is open, the parsed
list block — always of type `list` — is appended to the texts of the
current section if one is open (leaving the paragraph's own texts
untouched), and otherwise to the texts of the current paragraph
(retsinformation.py lines 144-153). -/
theorem claim1_list_item_attaches_to_deepest_open_container
    (st : WState) (p : Node) (rest : List Node) (tb : StructuredText)
    (hk : (Node.classes p).contains "Kapitel" = false)
    (hp : (Node.classes p).contains "Paragraf" = false)
    (hl : (Node.classes p).contains "Liste1" = true)
    (hpar : st.hasParagraph = true)
    (htb : parse_list_block p = Except.ok tb) :
    tb.type = TextType.list ∧
    (st.hasSection = true →
      walkStep st p rest = StepResult.cont
        ⟨appendTextToLastSection st.chapters tb, st.hasChapter, st.hasParagraph, st.hasSection⟩ ∧
      lastSectionTexts (appendTextToLastSection st.chapters tb) =
        (lastSectionTexts st.chapters).map (fun ts => ts ++ [tb]) ∧
      lastParagraphTexts (appendTextToLastSection st.chapters tb) =
        lastParagraphTexts st.chapters) ∧
    (st.hasSection = false →
      walkStep st p rest = StepResult.cont
        ⟨appendTextToLastParagraph st.chapters tb, st.hasChapter, st.hasParagraph, st.hasSection⟩ ∧
      lastParagraphTexts (appendTextToLastParagraph st.chapters tb) =
        (lastParagraphTexts st.chapters).map (fun ts => ts ++ [tb])) := by
  refine ⟨parse_list_block_ok_type p tb htb, ?_, ?_⟩
  · intro hsec
    refine ⟨?_, lastSectionTexts_appendTextToLastSection st.chapters tb,
      lastParagraphTexts_appendTextToLastSection st.chapters tb⟩
    unfold walkStep
    rw [hk, hp, hl, hpar, hsec, htb]
    simp
  · intro hsec
    refine ⟨?_, lastParagraphTexts_appendTextToLastParagraph st.chapters tb⟩
    unfold walkStep
    rw [hk, hp, hl, hpar, hsec, htb]
    simp

/-- Witness for C1 at a state with an open section: the block lands in the
section's texts and the paragraph's texts are unchanged. -/
theorem claim1_witness :
    parse_list_block listElem1 = Except.ok tbW ∧
    walkStep stateW listElem1 [] = StepResult.cont
      ⟨appendTextToLastSection stateW.chapters tbW, true, true, true⟩ ∧
    lastSectionTexts (appendTextToLastSection stateW.chapters tbW) =
      (lastSectionTexts stateW.chapters).map (fun ts => ts ++ [tbW]) ∧
    lastParagraphTexts (appendTextToLastSection stateW.chapters tbW) =
      lastParagraphTexts stateW.chapters := by
  have h := claim1_list_item_attaches_to_deepest_open_container stateW listElem1 [] tbW
    (by decide) (by decide) (by decide) rfl (by decide)
  have h2 := h.2.1 rfl
  exact ⟨by decide, h2.1, h2.2.1, h2.2.2⟩

/-! ## C10: dispatch priority of the `elif` chain -/

/-- C10. An element is handled by exactly one branch, chosen by the fixed
priority `Kapitel` > `Paragraf` > `Liste1` > `Stk2` > `IkraftTekst` of the
`elif` chain (retsinformation.py lines 131-165): each conclusion below
holds whatever lower-priority markers the element also carries.  In
particular an element marked both paragraph-start and subsection-start is
handled solely as a paragraph-start — it opens a new paragraph and clears
the open section instead of creating one. -/
theorem claim10_marker_dispatch_priority (st : WState) (p : Node) (rest : List Node) :
    ((Node.classes p).contains "Kapitel" = true →
      ∀ ch, parse_chapter p rest = Except.ok ch →
        walkStep st p rest = StepResult.cont ⟨st.chapters ++ [ch], true, false, false⟩) ∧
    ((Node.classes p).contains "Kapitel" = false →
      (Node.classes p).contains "Paragraf" = true →
      st.hasChapter = true →
      ∀ par, parse_paragraph p = Except.ok par →
        walkStep st p rest = StepResult.cont
          ⟨appendParagraphToLastChapter st.chapters par, st.hasChapter, true, false⟩) ∧
    ((Node.classes p).contains "Kapitel" = false →
      (Node.classes p).contains "Paragraf" = false →
      (Node.classes p).contains "Liste1" = true →
      st.hasParagraph = true →
      ∀ tb, parse_list_block p = Except.ok tb →
        walkStep st p rest = StepResult.cont
          ⟨(if st.hasSection then appendTextToLastSection st.chapters tb
            else appendTextToLastParagraph st.chapters tb),
            st.hasChapter, st.hasParagraph, st.hasSection⟩) ∧
    ((Node.classes p).contains "Kapitel" = false →
      (Node.classes p).contains "Paragraf" = false →
      (Node.classes p).contains "Liste1" = false →
      (Node.classes p).contains "Stk2" = true →
      st.hasParagraph = true →
      ∀ sec, parse_section p = Except.ok sec →
        walkStep st p rest = StepResult.cont
          ⟨appendSectionToLastParagraph st.chapters sec, st.hasChapter, st.hasParagraph, true⟩) ∧
    ((Node.classes p).contains "Kapitel" = false →
      (Node.classes p).contains "Paragraf" = false →
      (Node.classes p).contains "Liste1" = false →
      (Node.classes p).contains "Stk2" = false →
      (Node.classes p).contains "IkraftTekst" = true →
      walkStep st p rest = StepResult.stop) := by
  refine ⟨?_, ?_, ?_, ?_, ?_⟩
  · intro h1 ch hch
    unfold walkStep
    rw [h1, hch]
    simp
  · intro h1 h2 h3 par hpar
    unfold walkStep
    rw [h1, h2, h3, hpar]
    simp
  · intro h1 h2 h3 h4 tb htb
    unfold walkStep
    rw [h1, h2, h3, h4, htb]
    cases hs : st.hasSection <;> simp
  · intro h1 h2 h3 h4 h5 sec hsec
    unfold walkStep
    rw [h1, h2, h3, h4, h5, hsec]
    simp
  · intro h1 h2 h3 h4 h5
    unfold walkStep
    rw [h1, h2, h3, h4, h5]
    simp

/-- Witness for C10: `parStkElem` carries both `Paragraf` and `Stk2`; from
a state with an open section it is handled solely as a paragraph-start. -/
theorem claim10_witness :
    (Node.classes parStkElem).contains "Paragraf" = true ∧
    (Node.classes parStkElem).contains "Stk2" = true ∧
    parse_paragraph parStkElem = Except.ok parBoth ∧
    walkStep stateW parStkElem [] = StepResult.cont
      ⟨appendParagraphToLastChapter stateW.chapters parBoth, true, true, false⟩ := by
  refine ⟨by decide, by decide, by decide, ?_⟩
  exact (claim10_marker_dispatch_priority stateW parStkElem []).2.1
    (by decide) (by decide) rfl parBoth (by decide)

/-! ## C2: structural errors arise exactly from violated preconditions -/

theorem get_attr_id_error_not_structural (t : Node) (e : PError)
    (h : get_attr_id t = Except.error e) : ∀ m, e ≠ PError.structuralErr m := by
  unfold get_attr_id at h
  cases ha : Node.idAttr t with
  | some v => rw [ha] at h; exact Except.noConfusion h
  | none =>
    rw [ha] at h
    injection h with h
    intro m hm
    rw [hm] at h
    exact PError.noConfusion h

theorem get_cleaned_text_error_not_structural (t : Node) (e : PError)
    (h : get_cleaned_text t = Except.error e) : ∀ m, e ≠ PError.structuralErr m := by
  cases t with
  | text s =>
    unfold get_cleaned_text at h
    injection h with h
    intro m hm
    rw [hm] at h
    exact PError.noConfusion h
  | elem n i c cs => exact Except.noConfusion h

theorem mkStructuredText_error_not_structural (ty : TextType) (x : String)
    (g r : Option String) (e : PError)
    (h : mkStructuredText ty x g r = Except.error e) : ∀ m, e ≠ PError.structuralErr m := by
  unfold mkStructuredText at h
  split at h
  · injection h with h
    intro m hm
    rw [hm] at h
    exact PError.noConfusion h
  · exact Except.noConfusion h

theorem pyInt_error_not_structural (s : String) (e : PError)
    (h : pyInt s = Except.error e) : ∀ m, e ≠ PError.structuralErr m := by
  unfold pyInt at h
  split at h <;> split at h <;>
    first
      | exact Except.noConfusion h
      | (injection h with h; intro m hm; rw [hm] at h; exact PError.noConfusion h)

theorem parse_list_block_error_not_structural (p : Node) (e : PError)
    (h : parse_list_block p = Except.error e) : ∀ m, e ≠ PError.structuralErr m := by
  unfold parse_list_block at h
  cases hsp : Node.findSpanByClass p "Liste1Nr" with
  | none =>
    simp only [hsp] at h
    injection h with h
    intro m hm
    rw [hm] at h
    exact PError.noConfusion h
  | some span =>
    simp only [hsp] at h
    cases hid : get_attr_id span with
    | error e2 =>
      simp only [hid] at h
      injection h with h
      rw [← h]
      exact get_attr_id_error_not_structural span e2 hid
    | ok guid =>
      simp only [hid] at h
      cases hct : get_cleaned_text p with
      | error e2 =>
        simp only [hct] at h
        injection h with h
        rw [← h]
        exact get_cleaned_text_error_not_structural p e2 hct
      | ok text =>
        simp only [hct] at h
        exact mkStructuredText_error_not_structural _ _ _ _ _ h

theorem parse_section_error_not_structural (p : Node) (e : PError)
    (h : parse_section p = Except.error e) : ∀ m, e ≠ PError.structuralErr m := by
  unfold parse_section at h
  cases hsp : Node.findSpanByClass p "StkNr" with
  | none =>
    simp only [hsp] at h
    injection h with h
    intro m hm
    rw [hm] at h
    exact PError.noConfusion h
  | some span =>
    simp only [hsp] at h
    cases hid : get_attr_id span with
    | error e2 =>
      simp only [hid] at h
      injection h with h
      rw [← h]
      exact get_attr_id_error_not_structural span e2 hid
    | ok guid =>
      simp only [hid] at h
      cases hct : get_cleaned_text p with
      | error e2 =>
        simp only [hct] at h
        injection h with h
        rw [← h]
        exact get_cleaned_text_error_not_structural p e2 hct
      | ok text =>
        simp only [hct] at h
        cases hmk : mkStructuredText TextType.plain text none none with
        | error e2 =>
          simp only [hmk] at h
          injection h with h
          rw [← h]
          exact mkStructuredText_error_not_structural _ _ _ _ _ hmk
        | ok t =>
          simp only [hmk] at h
          exact Except.noConfusion h

theorem parse_paragraph_error_not_structural (p : Node) (e : PError)
    (h : parse_paragraph p = Except.error e) : ∀ m, e ≠ PError.structuralErr m := by
  unfold parse_paragraph at h
  cases hsp : Node.findSpanByClass p "ParagrafNr" with
  | none =>
    simp only [hsp] at h
    injection h with h
    intro m hm
    rw [hm] at h
    exact PError.noConfusion h
  | some span =>
    simp only [hsp] at h
    cases hid : get_attr_id span with
    | error e2 =>
      simp only [hid] at h
      injection h with h
      rw [← h]
      exact get_attr_id_error_not_structural span e2 hid
    | ok idv =>
      simp only [hid] at h
      cases hct : get_cleaned_text p with
      | error e2 =>
        simp only [hct] at h
        injection h with h
        rw [← h]
        exact get_cleaned_text_error_not_structural p e2 hct
      | ok text =>
        simp only [hct] at h
        cases hmk : mkStructuredText TextType.plain text none none with
        | error e2 =>
          simp only [hmk] at h
          injection h with h
          rw [← h]
          exact mkStructuredText_error_not_structural _ _ _ _ _ hmk
        | ok t =>
          simp only [hmk] at h
          cases hg : Node.idAttr p with
          | none =>
            simp only [hg] at h
            injection h with h
            intro m hm
            rw [hm] at h
            exact PError.noConfusion h
          | some g =>
            simp only [hg] at h
            exact Except.noConfusion h

theorem parse_chapter_error_not_structural (p : Node) (rest : List Node) (e : PError)
    (h : parse_chapter p rest = Except.error e) : ∀ m, e ≠ PError.structuralErr m := by
  unfold parse_chapter at h
  cases hsp : Node.findSpanKap p with
  | none =>
    simp only [hsp] at h
    injection h with h
    intro m hm
    rw [hm] at h
    exact PError.noConfusion h
  | some span =>
    simp only [hsp] at h
    cases hid : get_attr_id span with
    | error e2 =>
      simp only [hid] at h
      injection h with h
      rw [← h]
      exact get_attr_id_error_not_structural span e2 hid
    | ok idv =>
      simp only [hid] at h
      cases hint : pyInt (removeKap idv) with
      | error e2 =>
        simp only [hint] at h
        injection h with h
        rw [← h]
        exact pyInt_error_not_structural _ e2 hint
      | ok number =>
        simp only [hint] at h
        cases hnp : findNextPWithClass rest "KapitelOverskrift2" with
        | none =>
          simp only [hnp] at h
          injection h with h
          intro m hm
          rw [hm] at h
          exact PError.noConfusion h
        | some nextP =>
          simp only [hnp] at h
          cases hfs : Node.findFirstSpan nextP with
          | none =>
            simp only [hfs] at h
            injection h with h
            intro m hm
            rw [hm] at h
            exact PError.noConfusion h
          | some titleElem =>
            simp only [hfs] at h
            cases hct : get_cleaned_text titleElem with
            | error e2 =>
              simp only [hct] at h
              injection h with h
              rw [← h]
              exact get_cleaned_text_error_not_structural titleElem e2 hct
            | ok title =>
              simp only [hct] at h
              cases hg : Node.idAttr p with
              | none =>
                simp only [hg] at h
                injection h with h
                intro m hm
                rw [hm] at h
                exact PError.noConfusion h
              | some g =>
                simp only [hg] at h
                exact Except.noConfusion h

/-- C2. One walk iteration fails with a `StructuralError` exactly when a
structural precondition is violated: a paragraph-start dispatched with no
chapter open, or a list-item or subsection-start dispatched with no
paragraph open (retsinformation.py lines 137-159).  Moreover a
chapter-start clears the current paragraph and section, so after it — and
before any paragraph-start — a list-item or subsection-start violates its
precondition even if a paragraph was open in the preceding chapter. -/
theorem claim2_structural_error_characterisation (st : WState) (p : Node) (rest : List Node) :
    ((∃ m, walkStep st p rest = StepResult.fail (PError.structuralErr m)) ↔
      (((Node.classes p).contains "Kapitel" = false ∧
        (Node.classes p).contains "Paragraf" = true ∧ st.hasChapter = false) ∨
      ((Node.classes p).contains "Kapitel" = false ∧
        (Node.classes p).contains "Paragraf" = false ∧
        (Node.classes p).contains "Liste1" = true ∧ st.hasParagraph = false) ∨
      ((Node.classes p).contains "Kapitel" = false ∧
        (Node.classes p).contains "Paragraf" = false ∧
        (Node.classes p).contains "Liste1" = false ∧
        (Node.classes p).contains "Stk2" = true ∧ st.hasParagraph = false))) ∧
    (∀ ch, (Node.classes p).contains "Kapitel" = true →
      parse_chapter p rest = Except.ok ch →
      walkStep st p rest = StepResult.cont ⟨st.chapters ++ [ch], true, false, false⟩) := by
  constructor
  · constructor
    · rintro ⟨m, hm⟩
      unfold walkStep at hm
      cases hk : (Node.classes p).contains "Kapitel" with
      | true =>
        rw [hk] at hm
        simp only [if_pos rfl] at hm
        cases hpc : parse_chapter p rest with
        | error e =>
          simp only [hpc] at hm
          injection hm with hm
          exact absurd hm (parse_chapter_error_not_structural p rest e hpc m)
        | ok ch =>
          simp only [hpc] at hm
          exact StepResult.noConfusion hm
      | false =>
        rw [hk] at hm
        simp only [Bool.false_eq_true, if_false] at hm
        cases hp2 : (Node.classes p).contains "Paragraf" with
        | true =>
          rw [hp2] at hm
          simp only [if_pos rfl] at hm
          cases hc : st.hasChapter with
          | false =>
            exact Or.inl ⟨rfl, rfl, rfl⟩
          | true =>
            rw [hc] at hm
            simp only [Bool.true_eq_false, if_false] at hm
            cases hpp : parse_paragraph p with
            | error e =>
              simp only [hpp] at hm
              injection hm with hm
              exact absurd hm (parse_paragraph_error_not_structural p e hpp m)
            | ok par =>
              simp only [hpp] at hm
              exact StepResult.noConfusion hm
        | false =>
          rw [hp2] at hm
          simp only [Bool.false_eq_true, if_false] at hm
          cases hl : (Node.classes p).contains "Liste1" with
          | true =>
            rw [hl] at hm
            simp only [if_pos rfl] at hm
            cases hpar : st.hasParagraph with
            | false =>
              exact Or.inr (Or.inl ⟨rfl, rfl, rfl, rfl⟩)
            | true =>
              rw [hpar] at hm
              simp only [Bool.true_eq_false, if_false] at hm
              cases hlb : parse_list_block p with
              | error e =>
                simp only [hlb] at hm
                injection hm with hm
                exact absurd hm (parse_list_block_error_not_structural p e hlb m)
              | ok tb =>
                simp only [hlb] at hm
                cases hs : st.hasSection with
                | true => rw [hs] at hm; simp only [if_pos rfl] at hm; exact StepResult.noConfusion hm
                | false =>
                  rw [hs] at hm
                  simp only [Bool.false_eq_true, if_false] at hm
                  exact StepResult.noConfusion hm
          | false =>
            rw [hl] at hm
            simp only [Bool.false_eq_true, if_false] at hm
            cases hsk : (Node.classes p).contains "Stk2" with
            | true =>
              rw [hsk] at hm
              simp only [if_pos rfl] at hm
              cases hpar : st.hasParagraph with
              | false =>
                exact Or.inr (Or.inr ⟨rfl, rfl, rfl, rfl, rfl⟩)
              | true =>
                rw [hpar] at hm
                simp only [Bool.true_eq_false, if_false] at hm
                cases hps : parse_section p with
                | error e =>
                  simp only [hps] at hm
                  injection hm with hm
                  exact absurd hm (parse_section_error_not_structural p e hps m)
                | ok sec =>
                  simp only [hps] at hm
                  exact StepResult.noConfusion hm
            | false =>
              rw [hsk] at hm
              simp only [Bool.false_eq_true, if_false] at hm
              cases hik : (Node.classes p).contains "IkraftTekst" with
              | true =>
                rw [hik] at hm
                simp only [if_pos rfl] at hm
                exact StepResult.noConfusion hm
              | false =>
                rw [hik] at hm
                simp only [Bool.false_eq_true, if_false] at hm
                exact StepResult.noConfusion hm
    · intro hcase
      rcases hcase with ⟨hk, hp2, hc⟩ | ⟨hk, hp2, hl, hpar⟩ | ⟨hk, hp2, hl, hsk, hpar⟩
      · refine ⟨"Found paragraph outside chapter", ?_⟩
        unfold walkStep
        rw [hk, hp2, hc]
        simp
      · refine ⟨"Found list outside paragraph", ?_⟩
        unfold walkStep
        rw [hk, hp2, hl, hpar]
        simp
      · refine ⟨"Found section outside paragraph", ?_⟩
        unfold walkStep
        rw [hk, hp2, hl, hsk, hpar]
        simp
  · intro ch hk hch
    unfold walkStep
    rw [hk, hch]
    simp

/-- Witness for C2: a paragraph-start with no chapter open fails, a
list-item right after a chapter-start fails although a paragraph was open
in the state before that chapter-start, and a chapter-start continues with
the paragraph and section flags cleared. -/
theorem claim2_witness :
    (∃ m, walkStep ⟨[], false, false, false⟩ parElem1 [] =
      StepResult.fail (PError.structuralErr m)) ∧
    (∃ m, walkStep ⟨[chapterW], true, false, false⟩ listElem1 [] =
      StepResult.fail (PError.structuralErr m)) ∧
    walkStep ⟨[], false, false, false⟩ kapElem1 [kapTitleElem1] =
      StepResult.cont ⟨[⟨1, "Formål", "chguid", []⟩], true, false, false⟩ :=
  ⟨(claim2_structural_error_characterisation ⟨[], false, false, false⟩ parElem1 []).1.mpr
      (Or.inl ⟨by decide, by decide, rfl⟩),
    (claim2_structural_error_characterisation ⟨[chapterW], true, false, false⟩ listElem1 []).1.mpr
      (Or.inr (Or.inl ⟨by decide, by decide, by decide, rfl⟩)),
    (claim2_structural_error_characterisation ⟨[], false, false, false⟩ kapElem1
      [kapTitleElem1]).2 ⟨1, "Formål", "chguid", []⟩ (by decide) (by decide)⟩

/-! ## C3: where the walk stops at the end-of-content marker -/

theorem findNextP_trunc (cls : String) : ∀ l : List Node,
    (∀ q ∈ l.dropWhile (fun p => !dispatchesEndOfContent p),
      (Node.tagName q == "p" && (Node.classes q).contains cls) = false) →
    findNextPWithClass l cls =
      findNextPWithClass (l.takeWhile (fun p => !dispatchesEndOfContent p)) cls
  | [], _ => rfl
  | q :: t, h => by
    cases he : dispatchesEndOfContent q with
    | true =>
      have hd : (q :: t).dropWhile (fun p => !dispatchesEndOfContent p) = q :: t := by
        simp [List.dropWhile_cons, he]
      rw [hd] at h
      have ht : (q :: t).takeWhile (fun p => !dispatchesEndOfContent p) = [] := by
        simp [List.takeWhile_cons, he]
      rw [ht]
      show List.find? _ (q :: t) = List.find? _ []
      rw [List.find?_eq_none.mpr]
      · rfl
      · intro x hx
        rw [h x hx]
        exact Bool.false_ne_true
    | false =>
      have hd : (q :: t).dropWhile (fun p => !dispatchesEndOfContent p) =
          t.dropWhile (fun p => !dispatchesEndOfContent p) := by
        simp [List.dropWhile_cons, he]
      rw [hd] at h
      have ht : (q :: t).takeWhile (fun p => !dispatchesEndOfContent p) =
          q :: t.takeWhile (fun p => !dispatchesEndOfContent p) := by
        simp [List.takeWhile_cons, he]
      rw [ht]
      show List.find? _ (q :: t) = List.find? _ (q :: _)
      cases hq : (Node.tagName q == "p" && (Node.classes q).contains cls) with
      | true => simp only [List.find?_cons, hq]
      | false =>
        simp only [List.find?_cons, hq]
        exact findNextP_trunc cls t h

theorem parse_chapter_congr_findNext (p : Node) (rest rest' : List Node)
    (h : findNextPWithClass rest "KapitelOverskrift2" =
      findNextPWithClass rest' "KapitelOverskrift2") :
    parse_chapter p rest = parse_chapter p rest' := by
  unfold parse_chapter
  rw [h]

theorem walkStep_congr_findNext (st : WState) (p : Node) (rest rest' : List Node)
    (h : findNextPWithClass rest "KapitelOverskrift2" =
      findNextPWithClass rest' "KapitelOverskrift2") :
    walkStep st p rest = walkStep st p rest' := by
  unfold walkStep
  rw [parse_chapter_congr_findNext p rest rest' h]

theorem walkBody_trunc : ∀ (ps : List Node) (st : WState),
    (∀ q ∈ ps.dropWhile (fun p => !dispatchesEndOfContent p),
      (Node.tagName q == "p" && (Node.classes q).contains "KapitelOverskrift2") = false) →
    walkBody st ps = walkBody st (truncAtEndOfContent ps)
  | [], _, _ => rfl
  | p :: rest, st, h => by
    cases he : dispatchesEndOfContent p with
    | true =>
      have hcomp : ((!(Node.classes p).contains "Kapitel" &&
          !(Node.classes p).contains "Paragraf" && !(Node.classes p).contains "Liste1" &&
          !(Node.classes p).contains "Stk2") &&
          (Node.classes p).contains "IkraftTekst") = true := he
      simp only [Bool.and_eq_true, Bool.not_eq_true'] at hcomp
      obtain ⟨⟨⟨⟨hk, hp2⟩, hl⟩, hs⟩, hik⟩ := hcomp
      have hstop : walkStep st p rest = StepResult.stop := by
        unfold walkStep
        rw [hk, hp2, hl, hs, hik]
        simp
      have htr : truncAtEndOfContent (p :: rest) = [] := by
        simp [truncAtEndOfContent, List.takeWhile_cons, he]
      rw [htr]
      unfold walkBody
      rw [hstop]
    | false =>
      have hdw : (p :: rest).dropWhile (fun q => !dispatchesEndOfContent q) =
          rest.dropWhile (fun q => !dispatchesEndOfContent q) := by
        simp [List.dropWhile_cons, he]
      rw [hdw] at h
      have htr : truncAtEndOfContent (p :: rest) = p :: truncAtEndOfContent rest := by
        simp [truncAtEndOfContent, List.takeWhile_cons, he]
      rw [htr]
      have hstep : walkStep st p rest = walkStep st p (truncAtEndOfContent rest) :=
        walkStep_congr_findNext st p rest (truncAtEndOfContent rest)
          (findNextP_trunc "KapitelOverskrift2" rest h)
      show (match walkStep st p rest with
        | StepResult.cont st' => walkBody st' rest
        | StepResult.stop => Except.ok st.chapters
        | StepResult.fail e => Except.error e) =
        (match walkStep st p (truncAtEndOfContent rest) with
        | StepResult.cont st' => walkBody st' (truncAtEndOfContent rest)
        | StepResult.stop => Except.ok st.chapters
        | StepResult.fail e => Except.error e)
      rw [← hstep]
      cases hws : walkStep st p rest with
      | cont st' => exact walkBody_trunc rest st' h
      | stop => rfl
      | fail e => rfl

/-- C3 counterexample: in `psCrossingEoc` the only chapter-title element
sits after the end-of-content marker; `find_next` (retsinformation.py line
178) still reaches it, so the full parse succeeds with a chapter title
derived from a post-marker element while the parse of the prefix fails —
the parse result does not equal the parse of the prefix. -/
theorem claim3_counterexample :
    parse_chapters psCrossingEoc ≠ parse_chapters (truncAtEndOfContent psCrossingEoc) ∧
    parse_chapters psCrossingEoc = Except.ok [⟨1, "Efter", "chguid", []⟩] ∧
    truncAtEndOfContent psCrossingEoc = [kapElem1] := by
  decide

/-- C3 amended: the walk never visits elements after the first
end-of-content marker — the parse equals the parse of the prefix before
the marker — provided no chapter-title (`KapitelOverskrift2`) element lies
at or after the marker, since the chapter-title lookup is the one forward
search that can cross it. -/
theorem claim3_amended_walk_stops_at_end_of_content (ps : List Node)
    (h : ∀ q ∈ ps.dropWhile (fun p => !dispatchesEndOfContent p),
      (Node.tagName q == "p" && (Node.classes q).contains "KapitelOverskrift2") = false) :
    parse_chapters ps = parse_chapters (truncAtEndOfContent ps) :=
  walkBody_trunc ps ⟨[], false, false, false⟩ h

/-- Witness for the amended C3: `psTailAfterEoc` carries valid
chapter-start, paragraph-start and list-item markers after the marker, and
the parse ignores them all. -/
theorem claim3_witness :
    (∀ q ∈ psTailAfterEoc.dropWhile (fun p => !dispatchesEndOfContent p),
      (Node.tagName q == "p" && (Node.classes q).contains "KapitelOverskrift2") = false) ∧
    truncAtEndOfContent psTailAfterEoc = [kapElem1, kapTitleElem1] ∧
    parse_chapters psTailAfterEoc = parse_chapters (truncAtEndOfContent psTailAfterEoc) ∧
    parse_chapters psTailAfterEoc = Except.ok [⟨1, "Formål", "chguid", []⟩] :=
  ⟨by decide, by decide,
    claim3_amended_walk_stops_at_end_of_content psTailAfterEoc (by decide), by decide⟩

/-! ## C7: non-emptiness of parsed paragraph fields -/

theorem mem_modifyLast {α : Type} (f : α → α) : ∀ (l : List α) (x : α),
    x ∈ modifyLast f l → x ∈ l ∨ ∃ a, a ∈ l ∧ x = f a
  | [], x, h => by simp [modifyLast] at h
  | [a], x, h => by
    simp only [modifyLast, List.mem_singleton] at h
    exact Or.inr ⟨a, by simp, h⟩
  | a :: b :: t, x, h => by
    simp only [modifyLast] at h
    rcases List.mem_cons.mp h with h1 | h1
    · exact Or.inl (by simp [h1])
    · rcases mem_modifyLast f (b :: t) x h1 with h2 | ⟨c, hc, hx⟩
      · exact Or.inl (List.mem_cons_of_mem a h2)
      · exact Or.inr ⟨c, List.mem_cons_of_mem a hc, hx⟩

theorem parse_paragraph_fields_nonempty (p : Node) (par : StatuteParagraph)
    (hg : goodParagraphElem p = true) (hok : parse_paragraph p = Except.ok par) :
    par.guid ≠ "" ∧ par.id ≠ "" ∧ par.reference ≠ "" := by
  unfold goodParagraphElem at hg
  simp only [Bool.and_eq_true] at hg
  obtain ⟨hg1, hg2⟩ := hg
  unfold parse_paragraph at hok
  cases hsp : Node.findSpanByClass p "ParagrafNr" with
  | none => simp [hsp] at hok
  | some sp =>
    simp only [hsp] at hok
    simp only [hsp, Bool.and_eq_true] at hg2
    obtain ⟨hg2a, hg2b⟩ := hg2
    cases hid : get_attr_id sp with
    | error e => simp [hid] at hok
    | ok idv =>
      simp only [hid] at hok
      cases hct : get_cleaned_text p with
      | error e => simp [hct] at hok
      | ok text =>
        simp only [hct] at hok
        cases hmk : mkStructuredText TextType.plain text none none with
        | error e => simp [hmk] at hok
        | ok t =>
          simp only [hmk] at hok
          cases hgid : Node.idAttr p with
          | none => simp [hgid] at hok
          | some g =>
            simp only [hgid] at hok
            injection hok with hok
            rw [← hok]
            refine ⟨?_, ?_, ?_⟩
            · simp only [hgid] at hg1
              exact bne_iff_ne.mp hg1
            · unfold get_attr_id at hid
              cases hspa : Node.idAttr sp with
              | none => rw [hspa] at hid; exact Except.noConfusion hid
              | some w =>
                rw [hspa] at hid
                injection hid with hid
                simp only [hspa] at hg2a
                rw [← hid]
                exact bne_iff_ne.mp hg2a
            · intro hcon
              have hfilter : (Node.getText sp).data.filter (fun c => c ≠ '.') = [] := by
                have hd := congrArg String.data hcon
                simpa [removeDots] using hd
              rcases List.any_eq_true.mp hg2b with ⟨c, hc, hcd⟩
              have hmem : c ∈ (Node.getText sp).data.filter (fun c => c ≠ '.') :=
                List.mem_filter.mpr ⟨hc, hcd⟩
              rw [hfilter] at hmem
              cases hmem

theorem parse_chapter_ok_paragraphs (p : Node) (rest : List Node) (ch : StatuteChapter)
    (h : parse_chapter p rest = Except.ok ch) : ch.paragraphs = [] := by
  unfold parse_chapter at h
  cases hsp : Node.findSpanKap p with
  | none => simp [hsp] at h
  | some span =>
    simp only [hsp] at h
    cases hid : get_attr_id span with
    | error e => simp [hid] at h
    | ok idv =>
      simp only [hid] at h
      cases hint : pyInt (removeKap idv) with
      | error e => simp [hint] at h
      | ok number =>
        simp only [hint] at h
        cases hnp : findNextPWithClass rest "KapitelOverskrift2" with
        | none => simp [hnp] at h
        | some nextP =>
          simp only [hnp] at h
          cases hfs : Node.findFirstSpan nextP with
          | none => simp [hfs] at h
          | some titleElem =>
            simp only [hfs] at h
            cases hct : get_cleaned_text titleElem with
            | error e => simp [hct] at h
            | ok title =>
              simp only [hct] at h
              cases hgd : Node.idAttr p with
              | none => simp [hgd] at h
              | some g =>
                simp only [hgd] at h
                injection h with h
                rw [← h]

theorem walkStep_cont_chapters (st : WState) (p : Node) (rest : List Node) (st' : WState)
    (h : walkStep st p rest = StepResult.cont st') :
    st'.chapters = st.chapters ∨
    (∃ ch, parse_chapter p rest = Except.ok ch ∧ st'.chapters = st.chapters ++ [ch]) ∨
    (∃ par, parse_paragraph p = Except.ok par ∧
      (Node.classes p).contains "Kapitel" = false ∧
      (Node.classes p).contains "Paragraf" = true ∧
      st'.chapters = appendParagraphToLastChapter st.chapters par) ∨
    (∃ tb, st'.chapters = appendTextToLastSection st.chapters tb) ∨
    (∃ tb, st'.chapters = appendTextToLastParagraph st.chapters tb) ∨
    (∃ sec, st'.chapters = appendSectionToLastParagraph st.chapters sec) := by
  unfold walkStep at h
  cases hk : (Node.classes p).contains "Kapitel" with
  | true =>
    rw [hk] at h
    simp only [if_pos rfl] at h
    cases hpc : parse_chapter p rest with
    | error e => simp only [hpc] at h; exact StepResult.noConfusion h
    | ok ch =>
      simp only [hpc] at h
      injection h with h
      exact Or.inr (Or.inl ⟨ch, rfl, by rw [← h]⟩)
  | false =>
    rw [hk] at h
    simp only [Bool.false_eq_true, if_false] at h
    cases hp2 : (Node.classes p).contains "Paragraf" with
    | true =>
      rw [hp2] at h
      simp only [if_pos rfl] at h
      cases hc : st.hasChapter with
      | false =>
        rw [hc] at h
        simp only [if_pos rfl] at h
        exact StepResult.noConfusion h
      | true =>
        rw [hc] at h
        simp only [Bool.true_eq_false, if_false] at h
        cases hpp : parse_paragraph p with
        | error e => simp only [hpp] at h; exact StepResult.noConfusion h
        | ok par =>
          simp only [hpp] at h
          injection h with h
          exact Or.inr (Or.inr (Or.inl ⟨par, rfl, rfl, rfl, by rw [← h]⟩))
    | false =>
      rw [hp2] at h
      simp only [Bool.false_eq_true, if_false] at h
      cases hl : (Node.classes p).contains "Liste1" with
      | true =>
        rw [hl] at h
        simp only [if_pos rfl] at h
        cases hpar : st.hasParagraph with
        | false =>
          rw [hpar] at h
          simp only [if_pos rfl] at h
          exact StepResult.noConfusion h
        | true =>
          rw [hpar] at h
          simp only [Bool.true_eq_false, if_false] at h
          cases hlb : parse_list_block p with
          | error e => simp only [hlb] at h; exact StepResult.noConfusion h
          | ok tb =>
            simp only [hlb] at h
            cases hs : st.hasSection with
            | true =>
              rw [hs] at h
              simp only [if_pos rfl] at h
              injection h with h
              exact Or.inr (Or.inr (Or.inr (Or.inl ⟨tb, by rw [← h]⟩)))
            | false =>
              rw [hs] at h
              simp only [Bool.false_eq_true, if_false] at h
              injection h with h
              exact Or.inr (Or.inr (Or.inr (Or.inr (Or.inl ⟨tb, by rw [← h]⟩))))
      | false =>
        rw [hl] at h
        simp only [Bool.false_eq_true, if_false] at h
        cases hsk : (Node.classes p).contains "Stk2" with
        | true =>
          rw [hsk] at h
          simp only [if_pos rfl] at h
          cases hpar : st.hasParagraph with
          | false =>
            rw [hpar] at h
            simp only [if_pos rfl] at h
            exact StepResult.noConfusion h
          | true =>
            rw [hpar] at h
            simp only [Bool.true_eq_false, if_false] at h
            cases hps : parse_section p with
            | error e => simp only [hps] at h; exact StepResult.noConfusion h
            | ok sec =>
              simp only [hps] at h
              injection h with h
              exact Or.inr (Or.inr (Or.inr (Or.inr (Or.inr ⟨sec, by rw [← h]⟩))))
        | false =>
          rw [hsk] at h
          simp only [Bool.false_eq_true, if_false] at h
          cases hik : (Node.classes p).contains "IkraftTekst" with
          | true =>
            rw [hik] at h
            simp only [if_pos rfl] at h
            exact StepResult.noConfusion h
          | false =>
            rw [hik] at h
            simp only [Bool.false_eq_true, if_false] at h
            injection h with h
            exact Or.inl (by rw [← h])

theorem forall_paragraphs_appendParagraphToLastChapter
    (chs : List StatuteChapter) (par : StatuteParagraph)
    (hinv : ∀ ch ∈ chs, ∀ pr ∈ ch.paragraphs,
      pr.guid ≠ "" ∧ pr.id ≠ "" ∧ pr.reference ≠ "")
    (hpar : par.guid ≠ "" ∧ par.id ≠ "" ∧ par.reference ≠ "") :
    ∀ ch ∈ appendParagraphToLastChapter chs par, ∀ pr ∈ ch.paragraphs,
      pr.guid ≠ "" ∧ pr.id ≠ "" ∧ pr.reference ≠ "" := by
  intro ch hch pr hpr
  rcases mem_modifyLast _ chs ch hch with h1 | ⟨a, ha, hcheq⟩
  · exact hinv ch h1 pr hpr
  · subst hcheq
    rcases List.mem_append.mp hpr with h2 | h2
    · exact hinv a ha pr h2
    · rw [List.mem_singleton] at h2
      subst h2
      exact hpar

theorem forall_paragraphs_appendTextToLastSection
    (chs : List StatuteChapter) (tb : StructuredText)
    (hinv : ∀ ch ∈ chs, ∀ pr ∈ ch.paragraphs,
      pr.guid ≠ "" ∧ pr.id ≠ "" ∧ pr.reference ≠ "") :
    ∀ ch ∈ appendTextToLastSection chs tb, ∀ pr ∈ ch.paragraphs,
      pr.guid ≠ "" ∧ pr.id ≠ "" ∧ pr.reference ≠ "" := by
  intro ch hch pr hpr
  rcases mem_modifyLast _ chs ch hch with h1 | ⟨a, ha, hcheq⟩
  · exact hinv ch h1 pr hpr
  · subst hcheq
    rcases mem_modifyLast _ a.paragraphs pr hpr with h2 | ⟨b, hb, hpreq⟩
    · exact hinv a ha pr h2
    · subst hpreq
      exact hinv a ha b hb

theorem forall_paragraphs_appendTextToLastParagraph
    (chs : List StatuteChapter) (tb : StructuredText)
    (hinv : ∀ ch ∈ chs, ∀ pr ∈ ch.paragraphs,
      pr.guid ≠ "" ∧ pr.id ≠ "" ∧ pr.reference ≠ "") :
    ∀ ch ∈ appendTextToLastParagraph chs tb, ∀ pr ∈ ch.paragraphs,
      pr.guid ≠ "" ∧ pr.id ≠ "" ∧ pr.reference ≠ "" := by
  intro ch hch pr hpr
  rcases mem_modifyLast _ chs ch hch with h1 | ⟨a, ha, hcheq⟩
  · exact hinv ch h1 pr hpr
  · subst hcheq
    rcases mem_modifyLast _ a.paragraphs pr hpr with h2 | ⟨b, hb, hpreq⟩
    · exact hinv a ha pr h2
    · subst hpreq
      exact hinv a ha b hb

theorem forall_paragraphs_appendSectionToLastParagraph
    (chs : List StatuteChapter) (sec : StatuteSection)
    (hinv : ∀ ch ∈ chs, ∀ pr ∈ ch.paragraphs,
      pr.guid ≠ "" ∧ pr.id ≠ "" ∧ pr.reference ≠ "") :
    ∀ ch ∈ appendSectionToLastParagraph chs sec, ∀ pr ∈ ch.paragraphs,
      pr.guid ≠ "" ∧ pr.id ≠ "" ∧ pr.reference ≠ "" := by
  intro ch hch pr hpr
  rcases mem_modifyLast _ chs ch hch with h1 | ⟨a, ha, hcheq⟩
  · exact hinv ch h1 pr hpr
  · subst hcheq
    rcases mem_modifyLast _ a.paragraphs pr hpr with h2 | ⟨b, hb, hpreq⟩
    · exact hinv a ha pr h2
    · subst hpreq
      exact hinv a ha b hb

theorem walkBody_paragraph_fields : ∀ (ps : List Node) (st : WState)
    (chs : List StatuteChapter),
    (∀ p ∈ ps, (Node.classes p).contains "Kapitel" = false →
      (Node.classes p).contains "Paragraf" = true → goodParagraphElem p = true) →
    (∀ ch ∈ st.chapters, ∀ pr ∈ ch.paragraphs,
      pr.guid ≠ "" ∧ pr.id ≠ "" ∧ pr.reference ≠ "") →
    walkBody st ps = Except.ok chs →
    ∀ ch ∈ chs, ∀ pr ∈ ch.paragraphs, pr.guid ≠ "" ∧ pr.id ≠ "" ∧ pr.reference ≠ ""
  | [], st, chs, _, hinv, hok => by
    injection hok with hok
    rw [← hok]
    exact hinv
  | p :: rest, st, chs, hgood, hinv, hok => by
    have hgrest : ∀ q ∈ rest, (Node.classes q).contains "Kapitel" = false →
        (Node.classes q).contains "Paragraf" = true → goodParagraphElem q = true :=
      fun q hq => hgood q (List.mem_cons_of_mem p hq)
    cases hws : walkStep st p rest with
    | stop =>
      simp only [walkBody, hws] at hok
      injection hok with hok
      rw [← hok]
      exact hinv
    | fail e =>
      simp only [walkBody, hws] at hok
      exact Except.noConfusion hok
    | cont st' =>
      simp only [walkBody, hws] at hok
      refine walkBody_paragraph_fields rest st' chs hgrest ?_ hok
      rcases walkStep_cont_chapters st p rest st' hws with
        hsame | ⟨ch, hpc, hch⟩ | ⟨par, hpp, hk, hp2, hch⟩ | ⟨tb, hch⟩ | ⟨tb, hch⟩ | ⟨sec, hch⟩
      · rw [hsame]; exact hinv
      · rw [hch]
        intro ch' hch' pr hpr
        rcases List.mem_append.mp hch' with h1 | h1
        · exact hinv ch' h1 pr hpr
        · rw [List.mem_singleton] at h1
          rw [h1] at hpr
          rw [parse_chapter_ok_paragraphs p rest ch hpc] at hpr
          cases hpr
      · rw [hch]
        exact forall_paragraphs_appendParagraphToLastChapter st.chapters par hinv
          (parse_paragraph_fields_nonempty p par (hgood p (by simp) hk hp2) hpp)
      · rw [hch]; exact forall_paragraphs_appendTextToLastSection st.chapters tb hinv
      · rw [hch]; exact forall_paragraphs_appendTextToLastParagraph st.chapters tb hinv
      · rw [hch]; exact forall_paragraphs_appendSectionToLastParagraph st.chapters sec hinv

/-- C7 counterexample: the parser propagates an empty `id` attribute into
an empty paragraph guid — a successful parse can produce a paragraph whose
`guid` is the empty string, so the fields are not non-empty *regardless*
of the input's attribute values. -/
theorem claim7_counterexample :
    parse soupEmptyGuid = Except.ok statuteEmptyGuid ∧
    ∃ ch ∈ statuteEmptyGuid.chapters, ∃ pr ∈ ch.paragraphs, pr.guid = "" := by
  refine ⟨by decide, ?_⟩
  refine ⟨⟨1, "Formål", "chguid",
    [⟨"", "Par9", "§ 9", [⟨TextType.plain, "tekst", none, none⟩], []⟩]⟩, by decide,
    ⟨"", "Par9", "§ 9", [⟨TextType.plain, "tekst", none, none⟩], []⟩, by decide, rfl⟩

/-- C7 amended: in every successful parse, each paragraph's `guid`, `id`
and `reference` are (non-null) strings, and they are non-empty provided
every paragraph-start element carries non-degenerate publisher attributes
(non-empty `id` attributes and a marker span text with a character other
than `'.'`); with degenerate attributes the parser propagates empty
strings (see the counterexample). -/
theorem claim7_amended_fields_nonempty_for_good_inputs (soup : Soup) (st : Statute)
    (hgood : ∀ p ∈ soup.bodyPs, (Node.classes p).contains "Kapitel" = false →
      (Node.classes p).contains "Paragraf" = true → goodParagraphElem p = true)
    (hok : parse soup = Except.ok st) :
    ∀ ch ∈ st.chapters, ∀ pr ∈ ch.paragraphs,
      pr.guid ≠ "" ∧ pr.id ≠ "" ∧ pr.reference ≠ "" := by
  unfold parse at hok
  cases h1 : extract_id_and_date soup with
  | error e => simp [h1] at hok
  | ok nd =>
    obtain ⟨number, date⟩ := nd
    simp only [h1] at hok
    cases h2 : extract_title soup with
    | error e => simp [h2] at hok
    | ok title =>
      simp only [h2] at hok
      cases h3 : parse_chapters soup.bodyPs with
      | error e => simp [h3] at hok
      | ok chapters =>
        simp only [h3] at hok
        injection hok with hok
        rw [← hok]
        exact walkBody_paragraph_fields soup.bodyPs ⟨[], false, false, false⟩ chapters
          hgood (by intro ch hch; cases hch) h3

/-- Witness for the amended C7 on `soupAllGood`. -/
theorem claim7_witness :
    (∀ p ∈ soupAllGood.bodyPs, (Node.classes p).contains "Kapitel" = false →
      (Node.classes p).contains "Paragraf" = true → goodParagraphElem p = true) ∧
    parse soupAllGood = Except.ok statuteAllGood ∧
    (∀ ch ∈ statuteAllGood.chapters, ∀ pr ∈ ch.paragraphs,
      pr.guid ≠ "" ∧ pr.id ≠ "" ∧ pr.reference ≠ "") :=
  ⟨by decide, by decide,
    claim7_amended_fields_nonempty_for_good_inputs soupAllGood statuteAllGood
      (by decide) (by decide)⟩

/-- Witness for the amended C6 at `mutElem`'s components. -/
theorem claim6_witness :
    ∃ t, get_cleaned_text_run (Node.elem "p" none []
        (nodesOf [Node.text "a ", Node.elem "span" none [] (nodesOf [Node.text "x"])])) =
      Except.ok (t, Node.elem "p" none []
        (NodeList.filterTexts (nodesOf [Node.text "a ",
          Node.elem "span" none [] (nodesOf [Node.text "x"])]))) ∧
      get_cleaned_text_run (Node.elem "p" none []
        (NodeList.filterTexts (nodesOf [Node.text "a ",
          Node.elem "span" none [] (nodesOf [Node.text "x"])]))) =
      Except.ok (t, Node.elem "p" none []
        (NodeList.filterTexts (nodesOf [Node.text "a ",
          Node.elem "span" none [] (nodesOf [Node.text "x"])]))) ∧
      get_cleaned_text (Node.elem "p" none []
        (nodesOf [Node.text "a ", Node.elem "span" none [] (nodesOf [Node.text "x"])])) =
      Except.ok t :=
  claim6_amended_cleaning_extracts_descendant_tags "p" none []
    (nodesOf [Node.text "a ", Node.elem "span" none [] (nodesOf [Node.text "x"])])

/-- Witness for C9 at a concrete string. -/
theorem claim9_witness :
    normalizeStr (normalizeStr "  a \n b   c ") = normalizeStr "  a \n b   c " :=
  claim9_text_cleaning_idempotent "  a \n b   c "
